import Mathlib

/-!
# Node3Dc (mex_src/Node3Dc.h)

A shallow embedding of the class template `Node3Dc<T1,T2>`: one grid node with
its position, its grid index, one travel time and two parent indices per
thread slot, and the list of the cells that own it.

* `T1` is the travel-time / coordinate type, `T2` the index type; both are
  template parameters and stay type parameters here. What the class needs of
  them (`std::numeric_limits<T>::max()`, `sizeof`, `sqrt`, `fabs`, the
  arithmetic operators) is asked for through type classes.
* The three raw arrays `tt`, `nodeParent`, `cellParent` are lists; reading or
  writing outside the allocated block is undefined behaviour in C++ and is
  `none` here. Running out of memory is not modelled.
* `int` arguments are `Int`; an `int` result outside the range of `int` is
  undefined and is `none`. `size_t` is 64 bits wide and wraps.
* Where a statement depends on the arithmetic of `T1`, `T1` is `double`:
  `Double` below gives IEEE 754 binary64 by value, with every operation
  rounded on its own to nearest, ties to even.
-/

namespace BhTomo

/-! ## Numeric types -/

/-- The value `std::numeric_limits<T>::max()` of a numeric type. -/
class NumericLimits (T : Type) where
  max : T

/-- The functions of `<cmath>` the node calls on `T1`. -/
class CMath (T : Type) where
  sqrt : T → T
  fabs : T → T

/-- The result of `sizeof(T)`, in bytes. -/
class CSizeof (T : Type) where
  sizeof : Nat

/-- The point type `sxyz<T1>` (declared in another header): three coordinates. -/
structure sxyz (T1 : Type) where
  x : T1
  y : T1
  z : T1

/-- The type `double` (IEEE 754 binary64) by value: a NaN, an infinity, or a
finite number `(-1)^neg * k * 2^(-1074)`, an integer multiple of the smallest
subnormal. The sign of a zero is kept. -/
inductive Double where
  | nan : Double
  | inf (neg : Bool) : Double
  | fin (neg : Bool) (k : Nat) : Double
  deriving DecidableEq, Repr

namespace Double

/-- The largest finite magnitude, `(2^53 - 1) * 2^971`, in units of `2^(-1074)`. -/
def maxK : Nat := (2 ^ 53 - 1) * 2 ^ 2045

/-- The unit `1.0` in units of `2^(-1074)`. -/
def oneK : Nat := 2 ^ 1074

/-- The `double` of a natural number small enough to be exact (below `2^53`). -/
def ofNat (n : Nat) : Double := fin false (n * oneK)

/-- Round `n / 2^shift` to the nearest integer, ties to the even one. -/
def rne (n shift : Nat) : Nat :=
  let q := n / 2 ^ shift
  let r := n % 2 ^ shift
  if 2 * r < 2 ^ shift then q
  else if 2 ^ shift < 2 * r then q + 1
  else if q % 2 = 0 then q else q + 1

/-- Count the binary digits of `n` by halving, at most `fuel` times. -/
def bitLengthAux : Nat → Nat → Nat
  | 0, _ => 0
  | fuel + 1, n => if n = 0 then 0 else bitLengthAux fuel (n / 2) + 1

/-- The number of binary digits of `n` (`n` halvings always suffice). -/
def bitLength (n : Nat) : Nat := bitLengthAux n n

/-- Round the magnitude `n * 2^(-s)` (in units of `2^(-1074)`) to 53
significant bits, and to whole units below `2^53` (the subnormal and lowest
normal range), ties to even; the result is in units of `2^(-1074)` and is not
yet checked against the largest finite value. -/
def roundUnits (n s : Nat) : Nat :=
  let shift := Nat.max s (bitLength n - 53)
  rne n shift * 2 ^ (shift - s)

/-- The `double` nearest to `(-1)^neg * n * 2^(-s) * 2^(-1074)`, an infinity
when the rounded magnitude exceeds the largest finite value. -/
def ofMagnitude (neg : Bool) (n s : Nat) : Double :=
  if roundUnits n s ≤ maxK then fin neg (roundUnits n s) else inf neg

/-- The signed integer `(-1)^neg * k`. -/
def toInt (neg : Bool) (k : Nat) : Int := if neg then -(k : Int) else (k : Int)

/-- Unary minus. -/
def neg : Double → Double
  | nan => nan
  | inf s => inf (!s)
  | fin s k => fin (!s) k

/-- The operator `+` on `double`, rounding to nearest, ties to even. An exact
zero sum is `-0` only when both operands are negative. -/
def add : Double → Double → Double
  | nan, _ => nan
  | _, nan => nan
  | inf s, inf t => if s = t then inf s else nan
  | inf s, fin _ _ => inf s
  | fin _ _, inf t => inf t
  | fin s j, fin t k =>
    if toInt s j + toInt t k = 0 then fin (s && t) 0
    else ofMagnitude (decide (toInt s j + toInt t k < 0)) (toInt s j + toInt t k).natAbs 0

/-- The operator `-` on `double`: `u - v` is `u + (-v)`. -/
def sub (u v : Double) : Double := add u (neg v)

/-- The operator `*` on `double`, rounding to nearest, ties to even. -/
def mul : Double → Double → Double
  | nan, _ => nan
  | _, nan => nan
  | inf s, inf t => inf (xor s t)
  | inf s, fin t k => if k = 0 then nan else inf (xor s t)
  | fin s j, inf t => if j = 0 then nan else inf (xor s t)
  | fin s j, fin t k => ofMagnitude (xor s t) (j * k) 1074

/-- The function `sqrt` of `<cmath>` on `double`, correctly rounded: the
integer square root of `k * 2^1074` with a sticky half unit when inexact,
rounded to 53 bits. -/
def sqrt : Double → Double
  | nan => nan
  | inf true => nan
  | inf false => inf false
  | fin s k =>
    if k = 0 then fin s 0
    else if s then nan
    else
      ofMagnitude false
        (2 * Nat.sqrt (k * 2 ^ 1074)
          + (if Nat.sqrt (k * 2 ^ 1074) * Nat.sqrt (k * 2 ^ 1074) = k * 2 ^ 1074 then 0 else 1))
        1

/-- The function `fabs` of `<cmath>` on `double`. -/
def fabs : Double → Double
  | nan => nan
  | inf _ => inf false
  | fin _ k => fin false k

/-- The operator `<` on `double`: false when an operand is a NaN, and the two
zeros compare equal. -/
def lt : Double → Double → Bool
  | nan, _ => false
  | _, nan => false
  | inf s, inf t => s && !t
  | inf s, fin _ _ => s
  | fin _ _, inf t => !t
  | fin s j, fin t k => decide (toInt s j < toInt t k)

/-- The operator `>=` on `double`: false when an operand is a NaN. -/
def ge : Double → Double → Bool
  | nan, _ => false
  | _, nan => false
  | u, v => !lt u v

/-- The operator `==` on `double`: a NaN equals nothing, the two zeros are
equal. -/
def eqC : Double → Double → Bool
  | nan, _ => false
  | _, nan => false
  | inf s, inf t => s == t
  | inf _, fin _ _ => false
  | fin _ _, inf _ => false
  | fin s j, fin t k => toInt s j == toInt t k

/-- The test `std::isfinite`: neither a NaN nor an infinity. -/
def isFinite : Double → Bool
  | fin _ _ => true
  | _ => false

/-- A value with a clear sign bit that is not a NaN: `+0`, a positive finite
number or `+inf`. -/
def nonNeg : Double → Bool
  | fin false _ => true
  | inf false => true
  | _ => false

/-- A finite value `d` whose exact square is at most `2^(-1075)`, half the
smallest subnormal: the product `d * d` rounds to zero. -/
def squareUnderflows : Double → Bool
  | fin _ k => decide (2 * (k * k) ≤ 2 ^ 1074)
  | _ => false

instance : Add Double := ⟨add⟩

instance : Sub Double := ⟨sub⟩

instance : Mul Double := ⟨mul⟩

instance : CMath Double := ⟨sqrt, fabs⟩

instance : LT Double := ⟨fun u v => lt u v = true⟩

instance : DecidableRel (fun (u v : Double) => u < v) :=
  fun u v => inferInstanceAs (Decidable (lt u v = true))

instance : Zero Double := ⟨fin false 0⟩

instance : Inhabited Double := ⟨nan⟩

instance : NumericLimits Double := ⟨fin false maxK⟩

instance : CSizeof Double := ⟨8⟩

end Double

/-- The type `uint32_t`, a usual choice for the index type `T2`. -/
abbrev Index32 : Type := Fin 4294967296

instance : NumericLimits Index32 := ⟨⟨4294967295, by decide⟩⟩

instance : CSizeof Index32 := ⟨4⟩

/-! ## Raw arrays -/

/-- The block returned by `new T[n]`: `n` cells of indeterminate content (the
model fills them with an arbitrary inhabitant of `T`). -/
def newArray {T : Type} [Inhabited T] (n : Nat) : List T :=
  List.replicate n default

/-- The read `p[n]` for an `int` index: defined only inside the block. -/
def rawGet {T : Type} (p : List T) (n : Int) : Option T :=
  if 0 ≤ n then p[n.toNat]? else none

/-- The write `p[n] = v` for an `int` index: defined only inside the block. -/
def rawSet {T : Type} (p : List T) (n : Int) (v : T) : Option (List T) :=
  if 0 ≤ n ∧ n.toNat < p.length then some (p.set n.toNat v) else none

/-! ## The node -/

/-- The private members of `Node3Dc<T1,T2>` (lines 164-172). -/
structure Node3Dc (T1 T2 : Type) where
  nThreads : Int
  tt : List T1
  x : T1
  y : T1
  z : T1
  gridIndex : T2
  nodeParent : List T2
  cellParent : List T2
  owners : List T2

namespace Node3Dc

variable {T1 T2 : Type}

/-- One turn of the initialisation loop of the constructors (lines 55-57). -/
def initSlot [NumericLimits T1] [NumericLimits T2] (a : Node3Dc T1 T2) (n : Nat) :
    Node3Dc T1 T2 :=
  { a with
    tt := a.tt.set n (NumericLimits.max : T1)
    nodeParent := a.nodeParent.set n (NumericLimits.max : T2)
    cellParent := a.cellParent.set n (NumericLimits.max : T2) }

/-- The loop `for ( size_t n=0; n<nt; ++n )` of the constructors (lines 54-58). -/
def initLoop [NumericLimits T1] [NumericLimits T2] (nt : Nat) (a : Node3Dc T1 T2) :
    Node3Dc T1 T2 :=
  (List.range nt).foldl initSlot a

/-- The state after the member initialisers and the three `new` expressions
of the first two constructors, before the loop. -/
def allocated [Inhabited T1] [Inhabited T2] [NumericLimits T2]
    (xx yy zz : T1) (nt : Int) : Node3Dc T1 T2 :=
  { nThreads := nt
    tt := newArray nt.toNat
    x := xx
    y := yy
    z := zz
    gridIndex := NumericLimits.max
    nodeParent := newArray nt.toNat
    cellParent := newArray nt.toNat
    owners := [] }

/-- The constructor `Node3Dc(const int nt)` (lines 41-59). A negative `nt`
makes `new T1[nt]` throw, so no node is built; the literal `0.0f` converted to
`T1` is the zero of `T1`. -/
def ctor [Inhabited T1] [Inhabited T2] [Zero T1] [NumericLimits T1] [NumericLimits T2]
    (nt : Int) : Option (Node3Dc T1 T2) :=
  if nt < 0 then none
  else some (initLoop nt.toNat (allocated 0 0 0 nt))

/-- The constructor `Node3Dc(t, xx, yy, zz, nt, i)` (lines 61-81). -/
def ctorSeeded [Inhabited T1] [Inhabited T2] [NumericLimits T1] [NumericLimits T2]
    (t xx yy zz : T1) (nt i : Int) : Option (Node3Dc T1 T2) :=
  if nt < 0 then none
  else
    let a : Node3Dc T1 T2 := initLoop nt.toNat (allocated xx yy zz nt)
    (rawSet a.tt i t).map fun tt1 => { a with tt := tt1 }

/-- One turn of the loop of the copy constructor (lines 97-99): the three
cells of slot `n` are read from `node` and written to the copy. -/
def copySlot (node : Node3Dc T1 T2) (a : Node3Dc T1 T2) (n : Nat) :
    Option (Node3Dc T1 T2) :=
  (node.tt[n]?).bind fun t =>
  (node.nodeParent[n]?).bind fun np =>
  (node.cellParent[n]?).bind fun cp =>
    if n < a.tt.length ∧ n < a.nodeParent.length ∧ n < a.cellParent.length then
      some { a with
        tt := a.tt.set n t
        nodeParent := a.nodeParent.set n np
        cellParent := a.cellParent.set n cp }
    else none

/-- The copy constructor `Node3Dc(const Node3Dc<T1,T2>& node)` (lines 83-101). -/
def ctorCopy [Inhabited T1] [Inhabited T2] (node : Node3Dc T1 T2) :
    Option (Node3Dc T1 T2) :=
  if node.nThreads < 0 then none
  else
    (List.range node.nThreads.toNat).foldlM (copySlot node)
      { nThreads := node.nThreads
        tt := newArray node.nThreads.toNat
        x := node.x
        y := node.y
        z := node.z
        gridIndex := node.gridIndex
        nodeParent := newArray node.nThreads.toNat
        cellParent := newArray node.nThreads.toNat
        owners := node.owners }

/-- The method `reinit(const int n)` (lines 110-114). -/
def reinit [NumericLimits T1] [NumericLimits T2] (a : Node3Dc T1 T2) (n : Int) :
    Option (Node3Dc T1 T2) :=
  (rawSet a.tt n NumericLimits.max).bind fun tt1 =>
  (rawSet a.nodeParent n NumericLimits.max).bind fun np1 =>
  (rawSet a.cellParent n NumericLimits.max).map fun cp1 =>
    { a with tt := tt1, nodeParent := np1, cellParent := cp1 }

/-- The method `getTT(const int n)` (line 116). -/
def getTT (a : Node3Dc T1 T2) (n : Int) : Option T1 := rawGet a.tt n

/-- The method `setTT(const T1 t, const int n)` (line 117). -/
def setTT (a : Node3Dc T1 T2) (t : T1) (n : Int) : Option (Node3Dc T1 T2) :=
  (rawSet a.tt n t).map fun tt1 => { a with tt := tt1 }

/-- The method `setXYZindex` (lines 119-120). -/
def setXYZindex (a : Node3Dc T1 T2) (xx yy zz : T1) (index : T2) : Node3Dc T1 T2 :=
  { a with x := xx, y := yy, z := zz, gridIndex := index }

/-- The method `getX` (line 122). -/
def getX (a : Node3Dc T1 T2) : T1 := a.x

/-- The method `setX` (line 123). -/
def setX (a : Node3Dc T1 T2) (xx : T1) : Node3Dc T1 T2 := { a with x := xx }

/-- The method `getY` (line 125). -/
def getY (a : Node3Dc T1 T2) : T1 := a.y

/-- The method `setY` (line 126). -/
def setY (a : Node3Dc T1 T2) (yy : T1) : Node3Dc T1 T2 := { a with y := yy }

/-- The method `getZ` (line 128). -/
def getZ (a : Node3Dc T1 T2) : T1 := a.z

/-- The method `setZ` (line 129). -/
def setZ (a : Node3Dc T1 T2) (zz : T1) : Node3Dc T1 T2 := { a with z := zz }

/-- The method `getGridIndex` (line 131). -/
def getGridIndex (a : Node3Dc T1 T2) : T2 := a.gridIndex

/-- The method `setGridIndex` (line 132). -/
def setGridIndex (a : Node3Dc T1 T2) (index : T2) : Node3Dc T1 T2 :=
  { a with gridIndex := index }

/-- The method `getNodeParent(const int n)` (line 134). -/
def getNodeParent (a : Node3Dc T1 T2) (n : Int) : Option T2 := rawGet a.nodeParent n

/-- The method `setnodeParent(const T2 index, const int n)` (line 135). -/
def setnodeParent (a : Node3Dc T1 T2) (index : T2) (n : Int) : Option (Node3Dc T1 T2) :=
  (rawSet a.nodeParent n index).map fun np1 => { a with nodeParent := np1 }

/-- The method `getCellParent(const int n)` (line 137). -/
def getCellParent (a : Node3Dc T1 T2) (n : Int) : Option T2 := rawGet a.cellParent n

/-- The method `setCellParent(const T2 index, const int n)` (line 138). -/
def setCellParent (a : Node3Dc T1 T2) (index : T2) (n : Int) : Option (Node3Dc T1 T2) :=
  (rawSet a.cellParent n index).map fun cp1 => { a with cellParent := cp1 }

/-- The method `pushOwner(const T2 o)` (line 140): `owners.push_back(o)`. -/
def pushOwner (a : Node3Dc T1 T2) (o : T2) : Node3Dc T1 T2 :=
  { a with owners := a.owners ++ [o] }

/-- The method `getOwners()` (line 141). -/
def getOwners (a : Node3Dc T1 T2) : List T2 := a.owners

/-- The method `getDistance(const Node3Dc<T1,T2>& node)` (lines 143-145). -/
def getDistance [Add T1] [Sub T1] [Mul T1] [CMath T1] (a node : Node3Dc T1 T2) : T1 :=
  CMath.sqrt ((a.x - node.x) * (a.x - node.x) + (a.y - node.y) * (a.y - node.y)
    + (a.z - node.z) * (a.z - node.z))

/-- The method `getDistance(const sxyz<T1>& node)` (lines 147-149). -/
def getDistancePt [Add T1] [Sub T1] [Mul T1] [CMath T1] (a : Node3Dc T1 T2)
    (node : sxyz T1) : T1 :=
  CMath.sqrt ((a.x - node.x) * (a.x - node.x) + (a.y - node.y) * (a.y - node.y)
    + (a.z - node.z) * (a.z - node.z))

/-- The width of `size_t`, in bits. -/
def sizeBits : Nat := 64

/-- The result of `sizeof(int)`. -/
def sizeofInt : Nat := 4

/-- The conversion of an `int` to `size_t`. -/
def toSizeT (i : Int) : Nat := (i % (2 ^ sizeBits : Nat)).toNat

/-- The largest value of an `int`. -/
def intMax : Int := 2147483647

/-- An arithmetic result of type `int`: signed overflow is undefined. -/
def checkedInt (i : Int) : Option Int :=
  if -intMax - 1 ≤ i ∧ i ≤ intMax then some i else none

/-- The method `getSize()` (lines 156-159). The factor `1+2*nThreads` is
computed in `int`; everything else is `size_t` arithmetic, which wraps. -/
def getSize [CSizeof T1] [CSizeof T2] (a : Node3Dc T1 T2) : Option Nat :=
  (checkedInt (2 * a.nThreads)).bind fun twice =>
  (checkedInt (1 + twice)).map fun odd =>
    (sizeofInt + toSizeT a.nThreads * CSizeof.sizeof T1 + 3 * CSizeof.sizeof T1
      + toSizeT odd * CSizeof.sizeof T2
      + a.owners.length * CSizeof.sizeof T2) % 2 ^ sizeBits

/-- The method `getDimension()` (line 161). -/
def getDimension (_a : Node3Dc T1 T2) : Int := 3

/-- The class invariant: the three blocks have `nThreads` cells each. -/
def WF (a : Node3Dc T1 T2) : Prop :=
  0 ≤ a.nThreads ∧ a.tt.length = a.nThreads.toNat ∧
    a.nodeParent.length = a.nThreads.toNat ∧ a.cellParent.length = a.nThreads.toNat

/-- The node `b` satisfies the invariant and has the thread count and the
three array lengths of `a`. -/
def SameShape (a b : Node3Dc T1 T2) : Prop :=
  b.WF ∧ b.nThreads = a.nThreads ∧ b.tt.length = a.tt.length ∧
    b.nodeParent.length = a.nodeParent.length ∧ b.cellParent.length = a.cellParent.length

/-- The node `b` has the position, the grid index, the owners and the thread
count of `a`. -/
def SameShared (a b : Node3Dc T1 T2) : Prop :=
  b.getX = a.getX ∧ b.getY = a.getY ∧ b.getZ = a.getZ ∧
    b.getGridIndex = a.getGridIndex ∧ b.getOwners = a.getOwners ∧ b.nThreads = a.nThreads

/-- A node is fresh when one of the two building constructors returned it. -/
def Fresh [Inhabited T1] [Inhabited T2] [Zero T1] [NumericLimits T1] [NumericLimits T2]
    (a : Node3Dc T1 T2) : Prop :=
  (∃ nt : Int, ctor nt = some a) ∨
    (∃ (t xx yy zz : T1) (nt i : Int), ctorSeeded t xx yy zz nt i = some a)

/-- A node with two slots in use: slot 0 reached with travel time 1 from node
3 through cell 0, slot 1 holding other values; owned by cell 7. -/
def sampleNode : Node3Dc Double Index32 :=
  { nThreads := 2
    tt := [Double.ofNat 1, Double.ofNat 6]
    x := Double.ofNat 4
    y := Double.ofNat 5
    z := Double.ofNat 6
    gridIndex := 11
    nodeParent := [3, 5]
    cellParent := [0, 1]
    owners := [7] }

/-- The sum `getSize()` adds up, before any reduction to the width of
`size_t` (for a thread count that is not negative). -/
def byteCount [CSizeof T1] [CSizeof T2] (a : Node3Dc T1 T2) : Nat :=
  sizeofInt + a.nThreads.toNat * CSizeof.sizeof T1 + 3 * CSizeof.sizeof T1
    + (1 + 2 * a.nThreads.toNat) * CSizeof.sizeof T2
    + a.owners.length * CSizeof.sizeof T2

/-- The four mutators that take a slot index. -/
inductive SlotOp (T1 T2 : Type) where
  | reinit : SlotOp T1 T2
  | setTT (t : T1) : SlotOp T1 T2
  | setnodeParent (index : T2) : SlotOp T1 T2
  | setCellParent (index : T2) : SlotOp T1 T2

/-- Call the mutator `op` of the node `a` on slot `n`. -/
def SlotOp.run [NumericLimits T1] [NumericLimits T2] :
    SlotOp T1 T2 → Node3Dc T1 T2 → Int → Option (Node3Dc T1 T2)
  | SlotOp.reinit, a, n => a.reinit n
  | SlotOp.setTT t, a, n => a.setTT t n
  | SlotOp.setnodeParent index, a, n => a.setnodeParent index n
  | SlotOp.setCellParent index, a, n => a.setCellParent index n

/-- The node `a` with the cells of slot `k` that `op` assigns overwritten. -/
def SlotOp.written [NumericLimits T1] [NumericLimits T2] :
    SlotOp T1 T2 → Node3Dc T1 T2 → Nat → Node3Dc T1 T2
  | SlotOp.reinit, a, k =>
    { a with
      tt := a.tt.set k NumericLimits.max
      nodeParent := a.nodeParent.set k NumericLimits.max
      cellParent := a.cellParent.set k NumericLimits.max }
  | SlotOp.setTT t, a, k => { a with tt := a.tt.set k t }
  | SlotOp.setnodeParent index, a, k => { a with nodeParent := a.nodeParent.set k index }
  | SlotOp.setCellParent index, a, k => { a with cellParent := a.cellParent.set k index }

/-- The node of zero threads, as `Node3Dc(0)` builds it. -/
def zeroThreadNode : Node3Dc Double Index32 :=
  initLoop 0 (allocated 0 0 0 0)

/-- A node of four threads, as `Node3Dc(4)` builds it, registered with the
cells 7 and 8. -/
def fourThreadNode : Node3Dc Double Index32 :=
  ((initLoop 4 (allocated 0 0 0 4)).pushOwner 7).pushOwner 8

/-- A node of `2^30` threads, as `Node3Dc(1073741824)` builds it. -/
def wideNode : Node3Dc Double Index32 :=
  { nThreads := 1073741824
    tt := List.replicate 1073741824 NumericLimits.max
    x := 0
    y := 0
    z := 0
    gridIndex := NumericLimits.max
    nodeParent := List.replicate 1073741824 NumericLimits.max
    cellParent := List.replicate 1073741824 NumericLimits.max
    owners := [] }

end Node3Dc

/-! ## Lemmas on `double` arithmetic -/

namespace Double

theorem two_pow_pos (e : Nat) : 0 < 2 ^ e := Nat.pow_pos Nat.two_pos

theorem pow_bitLengthAux_le (fuel : Nat) :
    ∀ n : Nat, n ≠ 0 → 2 ^ (bitLengthAux fuel n - 1) ≤ n := by
  induction fuel with
  | zero => intro n hn; simp [bitLengthAux]; omega
  | succ f ih =>
    intro n hn
    unfold bitLengthAux
    rw [if_neg hn, Nat.add_sub_cancel]
    by_cases h2 : n / 2 = 0
    · have : bitLengthAux f (n / 2) = 0 := by
        rw [h2]
        cases f <;> simp [bitLengthAux]
      rw [this]
      simp
      omega
    · have h := ih (n / 2) h2
      by_cases h0 : bitLengthAux f (n / 2) = 0
      · rw [h0]
        simp
        omega
      · have e : bitLengthAux f (n / 2) = (bitLengthAux f (n / 2) - 1) + 1 := by omega
        rw [e, pow_succ]
        omega

theorem pow_bitLength_le (n : Nat) (hn : n ≠ 0) : 2 ^ (bitLength n - 1) ≤ n :=
  pow_bitLengthAux_le n n hn

theorem le_rne (n shift : Nat) : n / 2 ^ shift ≤ rne n shift := by
  unfold rne
  simp only
  split
  · exact le_refl _
  · split
    · exact Nat.le_succ _
    · split
      · exact le_refl _
      · exact Nat.le_succ _

theorem rne_eq_zero_iff (n shift : Nat) : rne n shift = 0 ↔ 2 * n ≤ 2 ^ shift := by
  have hpos : 0 < 2 ^ shift := two_pow_pos shift
  constructor
  · intro h
    have hq : n / 2 ^ shift = 0 := Nat.le_zero.mp (h ▸ le_rne n shift)
    have hlt : n < 2 ^ shift := (Nat.div_eq_zero_iff hpos).mp hq
    have hr : n % 2 ^ shift = n := Nat.mod_eq_of_lt hlt
    unfold rne at h
    simp only [hq, hr] at h
    split at h
    · omega
    · split at h
      · simp at h
      · omega
  · intro h
    have hlt : n < 2 ^ shift := by omega
    have hq : n / 2 ^ shift = 0 := Nat.div_eq_of_lt hlt
    have hr : n % 2 ^ shift = n := Nat.mod_eq_of_lt hlt
    unfold rne
    simp only [hq, hr]
    split
    · rfl
    · split
      · omega
      · simp

theorem roundUnits_eq_zero_iff (n s : Nat) : roundUnits n s = 0 ↔ 2 * n ≤ 2 ^ s := by
  unfold roundUnits
  simp only
  have hpos : ∀ e : Nat, 2 ^ e ≠ 0 := fun e => Nat.pos_iff_ne_zero.mp (two_pow_pos e)
  rw [Nat.mul_eq_zero, or_iff_left (hpos _), rne_eq_zero_iff]
  by_cases hs : bitLength n - 53 ≤ s
  · have : Nat.max s (bitLength n - 53) = s := Nat.max_eq_left hs
    rw [this]
  · have hs2 : s < bitLength n - 53 := Nat.lt_of_not_le hs
    have : Nat.max s (bitLength n - 53) = bitLength n - 53 := Nat.max_eq_right (le_of_lt hs2)
    rw [this]
    have hn : n ≠ 0 := by
      rintro rfl
      simp [bitLength, bitLengthAux] at hs2
    have h1 := pow_bitLength_le n hn
    have h2 : 2 ^ (bitLength n - 53) < 2 ^ (bitLength n - 1) :=
      Nat.pow_lt_pow_right (by norm_num) (by omega)
    have h3 : 2 ^ s < 2 ^ (bitLength n - 53) := Nat.pow_lt_pow_right (by norm_num) hs2
    constructor <;> intro h <;> omega

theorem roundUnits_zero (s : Nat) : roundUnits 0 s = 0 :=
  (roundUnits_eq_zero_iff 0 s).mpr (Nat.zero_le _)

theorem ofMagnitude_eq_zero_iff (b : Bool) (n s : Nat) :
    ofMagnitude b n s = fin false 0 ↔ b = false ∧ 2 * n ≤ 2 ^ s := by
  unfold ofMagnitude
  rw [← roundUnits_eq_zero_iff]
  split
  · simp
  · rename_i h
    constructor
    · intro h1
      cases h1
    · rintro ⟨_, h1⟩
      rw [h1] at h
      exact absurd (Nat.zero_le _) h

theorem ofMagnitude_nonNeg (n s : Nat) : nonNeg (ofMagnitude false n s) = true := by
  unfold ofMagnitude
  split <;> rfl

theorem fabs_ofMagnitude (b : Bool) (n s : Nat) :
    fabs (ofMagnitude b n s) = ofMagnitude false n s := by
  unfold ofMagnitude
  split <;> rfl

theorem add_fin (s t : Bool) (j k : Nat) :
    add (fin s j) (fin t k) =
      if toInt s j + toInt t k = 0 then fin (s && t) 0
      else ofMagnitude (decide (toInt s j + toInt t k < 0)) (toInt s j + toInt t k).natAbs 0 :=
  rfl

theorem mul_fin (s t : Bool) (j k : Nat) :
    mul (fin s j) (fin t k) = ofMagnitude (xor s t) (j * k) 1074 := rfl

theorem sqrt_fin_pos (k : Nat) (hk : k ≠ 0) :
    sqrt (fin false k) =
      ofMagnitude false
        (2 * Nat.sqrt (k * 2 ^ 1074)
          + (if Nat.sqrt (k * 2 ^ 1074) * Nat.sqrt (k * 2 ^ 1074) = k * 2 ^ 1074 then 0 else 1))
        1 := by
  show (if k = 0 then fin false 0 else if false = true then nan else _) = _
  rw [if_neg hk, if_neg (by decide)]

theorem mul_self_fabs (u : Double) : mul u u = mul (fabs u) (fabs u) := by
  cases u with
  | nan => rfl
  | inf s => cases s <;> rfl
  | fin s k => cases s <;> rfl

theorem toInt_not (s : Bool) (k : Nat) : toInt (!s) k = -toInt s k := by
  cases s <;> simp [toInt]

theorem fabs_sub_comm (u v : Double) : fabs (sub u v) = fabs (sub v u) := by
  cases u with
  | nan => cases v <;> rfl
  | inf s =>
    cases v with
    | nan => rfl
    | inf t => cases s <;> cases t <;> rfl
    | fin t k => rfl
  | fin s j =>
    cases v with
    | nan => rfl
    | inf t => rfl
    | fin t k =>
      show fabs (add (fin s j) (fin (!t) k)) = fabs (add (fin t k) (fin (!s) j))
      rw [add_fin, add_fin]
      simp only [toInt_not]
      have e : toInt t k + -toInt s j = -(toInt s j + -toInt t k) := by ring
      rw [e]
      by_cases h : toInt s j + -toInt t k = 0
      · rw [h]
        simp [fabs]
      · have h2 : ¬ (-(toInt s j + -toInt t k) = 0) := by omega
        rw [if_neg h, if_neg h2, fabs_ofMagnitude, fabs_ofMagnitude, Int.natAbs_neg]

/-- The square of a difference does not depend on the order of the operands. -/
theorem sub_swap_sq (u v : Double) :
    mul (sub u v) (sub u v) = mul (sub v u) (sub v u) := by
  rw [mul_self_fabs (sub u v), mul_self_fabs (sub v u), fabs_sub_comm]

theorem sub_self_fin (s : Bool) (k : Nat) : sub (fin s k) (fin s k) = fin false 0 := by
  show add (fin s k) (fin (!s) k) = fin false 0
  rw [add_fin, toInt_not, if_pos (by omega)]
  cases s <;> rfl

theorem mul_zero_zero : mul (fin false 0) (fin false 0) = fin false 0 := by
  show ofMagnitude _ _ _ = _
  rw [ofMagnitude_eq_zero_iff]
  exact ⟨rfl, Nat.zero_le _⟩

theorem add_zero_zero : add (fin false 0) (fin false 0) = fin false 0 := rfl

theorem sqrt_zero : sqrt (fin false 0) = fin false 0 := rfl

theorem sub_fin_ne_nan (s t : Bool) (j k : Nat) : sub (fin s j) (fin t k) ≠ nan := by
  show add (fin s j) (fin (!t) k) ≠ nan
  rw [add_fin]
  unfold ofMagnitude
  split
  · simp
  · split <;> simp

theorem mul_self_nonNeg (u : Double) (h : u ≠ nan) : nonNeg (mul u u) = true := by
  cases u with
  | nan => exact absurd rfl h
  | inf s => cases s <;> rfl
  | fin s k =>
    rw [mul_fin, Bool.xor_self]
    exact ofMagnitude_nonNeg _ _

theorem squareUnderflows_fin (s : Bool) (k : Nat) :
    squareUnderflows (fin s k) = decide (2 * (k * k) ≤ 2 ^ 1074) := rfl

theorem mul_self_eq_zero_iff (u : Double) :
    mul u u = fin false 0 ↔ squareUnderflows u = true := by
  cases u with
  | nan => exact ⟨fun h => Double.noConfusion h, fun h => Bool.noConfusion h⟩
  | inf s => exact ⟨fun h => Double.noConfusion h, fun h => Bool.noConfusion h⟩
  | fin s k =>
    rw [mul_fin, ofMagnitude_eq_zero_iff, Bool.xor_self, squareUnderflows_fin,
      decide_eq_true_iff]
    exact ⟨fun h => h.2, fun h => ⟨rfl, h⟩⟩

theorem toInt_false (k : Nat) : toInt false k = (k : Int) := rfl

theorem add_nonNeg (u v : Double) (hu : nonNeg u = true)
    (hv : nonNeg v = true) : nonNeg (add u v) = true := by
  cases u with
  | nan => exact Bool.noConfusion hu
  | inf s =>
    cases s
    · cases v with
      | nan => exact Bool.noConfusion hv
      | inf t => cases t <;> first | rfl | exact Bool.noConfusion hv
      | fin t k => rfl
    · exact Bool.noConfusion hu
  | fin s j =>
    cases s
    · cases v with
      | nan => exact Bool.noConfusion hv
      | inf t => cases t <;> first | rfl | exact Bool.noConfusion hv
      | fin t k =>
        cases t
        · rw [add_fin]
          simp only [toInt_false]
          split
          · rfl
          · have : ¬ ((j : Int) + (k : Int) < 0) := by omega
            rw [decide_eq_false this]
            exact ofMagnitude_nonNeg _ _
        · exact Bool.noConfusion hv
    · exact Bool.noConfusion hu

theorem add_eq_zero_iff (u v : Double) (hu : nonNeg u = true)
    (hv : nonNeg v = true) :
    add u v = fin false 0 ↔ u = fin false 0 ∧ v = fin false 0 := by
  cases u with
  | nan => exact Bool.noConfusion hu
  | inf s =>
    cases s
    · cases v with
      | nan => exact Bool.noConfusion hv
      | inf t => cases t <;> simp [add]
      | fin t k => simp [add]
    · exact Bool.noConfusion hu
  | fin s j =>
    cases s
    · cases v with
      | nan => exact Bool.noConfusion hv
      | inf t => simp [add]
      | fin t k =>
        cases t
        · rw [add_fin]
          simp only [toInt_false]
          by_cases h : (j : Int) + (k : Int) = 0
          · rw [if_pos h]
            have hj : j = 0 := by omega
            have hk : k = 0 := by omega
            simp [hj, hk]
          · rw [if_neg h, ofMagnitude_eq_zero_iff]
            have e : ((j : Int) + (k : Int)).natAbs = j + k := by omega
            rw [e]
            constructor
            · rintro ⟨_, h2⟩
              simp at h2
              omega
            · rintro ⟨h1, h2⟩
              cases h1
              cases h2
              simp at h
        · exact Bool.noConfusion hv
    · exact Bool.noConfusion hu

theorem sqrt_nonNeg (u : Double) (hu : nonNeg u = true) :
    nonNeg (sqrt u) = true := by
  cases u with
  | nan => exact Bool.noConfusion hu
  | inf s => cases s <;> first | rfl | exact Bool.noConfusion hu
  | fin s k =>
    cases s
    · by_cases hk : k = 0
      · rw [hk, sqrt_zero]
        rfl
      · rw [sqrt_fin_pos k hk]
        exact ofMagnitude_nonNeg _ _
    · exact Bool.noConfusion hu

theorem sqrt_eq_zero_iff (u : Double) (hu : nonNeg u = true) :
    sqrt u = fin false 0 ↔ u = fin false 0 := by
  cases u with
  | nan => exact Bool.noConfusion hu
  | inf s =>
    cases s
    · exact ⟨fun h => Double.noConfusion h, fun h => Double.noConfusion h⟩
    · exact Bool.noConfusion hu
  | fin s k =>
    cases s
    · by_cases hk : k = 0
      · rw [hk, sqrt_zero]
      · rw [sqrt_fin_pos k hk, ofMagnitude_eq_zero_iff]
        have hpos : 0 < Nat.sqrt (k * 2 ^ 1074) :=
          Nat.sqrt_pos.mpr (Nat.mul_pos (Nat.pos_of_ne_zero hk) (two_pow_pos _))
        constructor
        · rintro ⟨_, h⟩
          omega
        · intro h
          injection h with _ h
          exact absurd h hk
    · exact Bool.noConfusion hu

theorem eqC_self (u : Double) (hu : nonNeg u = true) : eqC u u = true := by
  cases u with
  | nan => exact Bool.noConfusion hu
  | inf s => simp [eqC]
  | fin s k => simp [eqC]

theorem lt_zero_of_nonNeg (u : Double) (hu : nonNeg u = true) (h : u ≠ fin false 0) :
    lt (fin false 0) u = true := by
  cases u with
  | nan => exact Bool.noConfusion hu
  | inf s => cases s <;> first | rfl | exact Bool.noConfusion hu
  | fin s k =>
    cases s
    · have hk : k ≠ 0 := fun hk => h (by rw [hk])
      simp [lt, toInt]
      omega
    · exact Bool.noConfusion hu

theorem lt_false_of_ge (u v : Double) (h : ge u v = true) : lt u v = false := by
  cases u <;> cases v <;> simp_all [ge]

theorem sq_sub_nonNeg (u v : Double) (hu : isFinite u = true) (hv : isFinite v = true) :
    nonNeg (mul (sub u v) (sub u v)) = true := by
  cases u with
  | nan => exact Bool.noConfusion hu
  | inf s => exact Bool.noConfusion hu
  | fin s j =>
    cases v with
    | nan => exact Bool.noConfusion hv
    | inf t => exact Bool.noConfusion hv
    | fin t k => exact mul_self_nonNeg _ (sub_fin_ne_nan s t j k)

theorem sub_self_finite (u : Double) (hu : isFinite u = true) : sub u u = fin false 0 := by
  cases u with
  | nan => exact Bool.noConfusion hu
  | inf s => exact Bool.noConfusion hu
  | fin s k => exact sub_self_fin s k

end Double

namespace Node3Dc

variable {T1 T2 : Type}

/-! ## Lemmas on the distance -/

theorem getDistance_eq (a b : Node3Dc Double T2) :
    a.getDistance b =
      Double.sqrt (Double.add
        (Double.add (Double.mul (Double.sub a.x b.x) (Double.sub a.x b.x))
          (Double.mul (Double.sub a.y b.y) (Double.sub a.y b.y)))
        (Double.mul (Double.sub a.z b.z) (Double.sub a.z b.z))) := rfl

theorem getDistance_comm (a b : Node3Dc Double T2) : a.getDistance b = b.getDistance a := by
  rw [getDistance_eq, getDistance_eq, Double.sub_swap_sq a.x, Double.sub_swap_sq a.y,
    Double.sub_swap_sq a.z]

theorem getDistance_nonNeg (a b : Node3Dc Double T2)
    (hax : a.x.isFinite = true) (hay : a.y.isFinite = true) (haz : a.z.isFinite = true)
    (hbx : b.x.isFinite = true) (hby : b.y.isFinite = true) (hbz : b.z.isFinite = true) :
    (a.getDistance b).nonNeg = true := by
  rw [getDistance_eq]
  exact Double.sqrt_nonNeg _ (Double.add_nonNeg _ _
    (Double.add_nonNeg _ _ (Double.sq_sub_nonNeg _ _ hax hbx) (Double.sq_sub_nonNeg _ _ hay hby))
    (Double.sq_sub_nonNeg _ _ haz hbz))

theorem getDistance_same (a b : Node3Dc Double T2)
    (hax : a.x.isFinite = true) (hay : a.y.isFinite = true) (haz : a.z.isFinite = true)
    (hx : a.x = b.x) (hy : a.y = b.y) (hz : a.z = b.z) : a.getDistance b = 0 := by
  rw [getDistance_eq, ← hx, ← hy, ← hz, Double.sub_self_finite _ hax,
    Double.sub_self_finite _ hay, Double.sub_self_finite _ haz, Double.mul_zero_zero,
    Double.add_zero_zero, Double.add_zero_zero, Double.sqrt_zero]
  rfl

theorem getDistance_eq_zero_iff (a b : Node3Dc Double T2)
    (hax : a.x.isFinite = true) (hay : a.y.isFinite = true) (haz : a.z.isFinite = true)
    (hbx : b.x.isFinite = true) (hby : b.y.isFinite = true) (hbz : b.z.isFinite = true) :
    a.getDistance b = 0 ↔
      (a.x - b.x).squareUnderflows = true ∧ (a.y - b.y).squareUnderflows = true ∧
        (a.z - b.z).squareUnderflows = true := by
  have hx := Double.sq_sub_nonNeg _ _ hax hbx
  have hy := Double.sq_sub_nonNeg _ _ hay hby
  have hz := Double.sq_sub_nonNeg _ _ haz hbz
  show a.getDistance b = Double.fin false 0 ↔
    (Double.sub a.x b.x).squareUnderflows = true ∧ (Double.sub a.y b.y).squareUnderflows = true ∧
      (Double.sub a.z b.z).squareUnderflows = true
  rw [getDistance_eq, Double.sqrt_eq_zero_iff _ (Double.add_nonNeg _ _
    (Double.add_nonNeg _ _ hx hy) hz), Double.add_eq_zero_iff _ _ (Double.add_nonNeg _ _ hx hy) hz,
    Double.add_eq_zero_iff _ _ hx hy, Double.mul_self_eq_zero_iff, Double.mul_self_eq_zero_iff,
    Double.mul_self_eq_zero_iff, and_assoc]

/-! ## Lemmas on raw arrays -/

theorem rawGet_of_lt {T : Type} (p : List T) (n : Int) (h0 : 0 ≤ n)
    (h : n.toNat < p.length) : rawGet p n = some (p.get ⟨n.toNat, h⟩) := by
  simp [rawGet, h0, List.getElem?_eq_getElem h]

theorem rawSet_of_lt {T : Type} (p : List T) (n : Int) (v : T) (h0 : 0 ≤ n)
    (h : n.toNat < p.length) : rawSet p n v = some (p.set n.toNat v) := by
  simp [rawSet, h0, h]

theorem rawGet_set_same {T : Type} (p : List T) (n : Int) (v : T) (h0 : 0 ≤ n)
    (h : n.toNat < p.length) : rawGet (p.set n.toNat v) n = some v := by
  simp [rawGet, h0, h]

theorem rawGet_set_other {T : Type} (p : List T) (n m : Int) (v : T) (h0 : 0 ≤ n)
    (hm : 0 ≤ m) (hne : m ≠ n) : rawGet (p.set n.toNat v) m = rawGet p m := by
  have hnat : n.toNat ≠ m.toNat := by omega
  simp [rawGet, hm, List.getElem?_set_ne hnat]

theorem toNat_lt_of_lt (n T : Int) (h0 : 0 ≤ n) (h : n < T) : n.toNat < T.toNat := by
  omega

theorem foldl_set_length {T : Type} (v : T) (r : List Nat) (p : List T) :
    (r.foldl (fun l n => l.set n v) p).length = p.length := by
  induction r generalizing p with
  | nil => rfl
  | cons a r ih => simp [ih]

/-- The list written by the loop `for n < nt: p[n] = v`. -/
theorem foldl_set_getElem? {T : Type} (v : T) (nt : Nat) (p : List T) (i : Nat) :
    ((List.range nt).foldl (fun l n => l.set n v) p)[i]? =
      if i < nt ∧ i < p.length then some v else p[i]? := by
  induction nt with
  | zero => simp
  | succ k ih =>
    rw [List.range_succ, List.foldl_append]
    simp only [List.foldl_cons, List.foldl_nil]
    by_cases hik : i = k
    · subst hik
      rw [List.getElem?_set, foldl_set_length]
      by_cases hl : i < p.length
      · simp [hl]
      · have hnone : p[i]? = none := by simp; omega
        simp [hl, hnone]
    · rw [List.getElem?_set_ne (Ne.symm hik), ih]
      have : (i < k + 1) ↔ (i < k) := by omega
      simp [this]

/-! ## Lemmas on the constructors -/

theorem foldl_initSlot [NumericLimits T1] [NumericLimits T2] (r : List Nat)
    (a : Node3Dc T1 T2) :
    r.foldl initSlot a =
      { a with
        tt := r.foldl (fun l n => l.set n (NumericLimits.max : T1)) a.tt
        nodeParent := r.foldl (fun l n => l.set n (NumericLimits.max : T2)) a.nodeParent
        cellParent := r.foldl (fun l n => l.set n (NumericLimits.max : T2)) a.cellParent } := by
  induction r generalizing a with
  | nil => rfl
  | cons n r ih => simp [ih, initSlot]

theorem initLoop_eq [NumericLimits T1] [NumericLimits T2] (nt : Nat) (a : Node3Dc T1 T2) :
    initLoop nt a =
      { a with
        tt := (List.range nt).foldl (fun l n => l.set n (NumericLimits.max : T1)) a.tt
        nodeParent :=
          (List.range nt).foldl (fun l n => l.set n (NumericLimits.max : T2)) a.nodeParent
        cellParent :=
          (List.range nt).foldl (fun l n => l.set n (NumericLimits.max : T2)) a.cellParent } :=
  foldl_initSlot _ a

theorem rawGet_foldl_set {T : Type} (v : T) (nt : Nat) (p : List T) (n : Int)
    (h0 : 0 ≤ n) (h1 : n.toNat < nt) (h2 : n.toNat < p.length) :
    rawGet ((List.range nt).foldl (fun l n => l.set n v) p) n = some v := by
  simp [rawGet, h0, foldl_set_getElem?, h1, h2]

theorem initLoop_getTT [Inhabited T1] [Inhabited T2] [NumericLimits T1] [NumericLimits T2]
    (xx yy zz : T1) (nt n : Int) (h0 : 0 ≤ n) (hn : n < nt) :
    (initLoop nt.toNat (allocated xx yy zz nt : Node3Dc T1 T2)).getTT n
      = some NumericLimits.max := by
  have h : n.toNat < nt.toNat := toNat_lt_of_lt n nt h0 hn
  rw [initLoop_eq]
  exact rawGet_foldl_set _ _ _ _ h0 h (by simpa [allocated, newArray] using h)

theorem initLoop_getNodeParent [Inhabited T1] [Inhabited T2] [NumericLimits T1]
    [NumericLimits T2] (xx yy zz : T1) (nt n : Int) (h0 : 0 ≤ n) (hn : n < nt) :
    (initLoop nt.toNat (allocated xx yy zz nt : Node3Dc T1 T2)).getNodeParent n
      = some NumericLimits.max := by
  have h : n.toNat < nt.toNat := toNat_lt_of_lt n nt h0 hn
  rw [initLoop_eq]
  exact rawGet_foldl_set _ _ _ _ h0 h (by simpa [allocated, newArray] using h)

theorem initLoop_getCellParent [Inhabited T1] [Inhabited T2] [NumericLimits T1]
    [NumericLimits T2] (xx yy zz : T1) (nt n : Int) (h0 : 0 ≤ n) (hn : n < nt) :
    (initLoop nt.toNat (allocated xx yy zz nt : Node3Dc T1 T2)).getCellParent n
      = some NumericLimits.max := by
  have h : n.toNat < nt.toNat := toNat_lt_of_lt n nt h0 hn
  rw [initLoop_eq]
  exact rawGet_foldl_set _ _ _ _ h0 h (by simpa [allocated, newArray] using h)

/-! ## Construction and reset -/

/-- C1: for every thread count `T ≥ 1` and every slot `0 ≤ n < T`, the
constructor `Node3Dc(T)` builds a node whose `getTT(n)` is the maximum of `T1`
and whose `getNodeParent(n)` and `getCellParent(n)` are the maximum of `T2`. -/
theorem ctor_slots_unset [Inhabited T1] [Inhabited T2] [Zero T1] [NumericLimits T1]
    [NumericLimits T2] (T n : Int) (hT : 1 ≤ T) (h0 : 0 ≤ n) (hn : n < T) :
    ∃ a : Node3Dc T1 T2, ctor T = some a ∧
      a.getTT n = some NumericLimits.max ∧
      a.getNodeParent n = some NumericLimits.max ∧
      a.getCellParent n = some NumericLimits.max := by
  refine ⟨initLoop T.toNat (allocated 0 0 0 T), ?_, ?_, ?_, ?_⟩
  · have : ¬ T < 0 := by omega
    simp [ctor, this]
  · exact initLoop_getTT 0 0 0 T n h0 hn
  · exact initLoop_getNodeParent 0 0 0 T n h0 hn
  · exact initLoop_getCellParent 0 0 0 T n h0 hn

/-- Scenario A: with four threads, slot 2 of a new node is unset. -/
theorem ctor_slots_unset_witness :
    (1 : Int) ≤ 4 ∧ (0 : Int) ≤ 2 ∧ (2 : Int) < 4 ∧
    ∃ a : Node3Dc Double Index32, ctor 4 = some a ∧
      a.getTT 2 = some (Double.fin false Double.maxK) ∧
      a.getNodeParent 2 = some 4294967295 ∧
      a.getCellParent 2 = some 4294967295 :=
  ⟨by decide, by decide, by decide,
    ctor_slots_unset 4 2 (by decide) (by decide) (by decide)⟩

theorem reinit_eq [NumericLimits T1] [NumericLimits T2] (a : Node3Dc T1 T2) (n : Int)
    (hwf : a.WF) (h0 : 0 ≤ n) (hn : n < a.nThreads) :
    a.reinit n = some
      { a with
        tt := a.tt.set n.toNat NumericLimits.max
        nodeParent := a.nodeParent.set n.toNat NumericLimits.max
        cellParent := a.cellParent.set n.toNat NumericLimits.max } := by
  obtain ⟨_, h1, h2, h3⟩ := hwf
  have h : n.toNat < a.nThreads.toNat := toNat_lt_of_lt n _ h0 hn
  simp [reinit, rawSet, h0, h1, h2, h3, h]

theorem sampleNode_wf : sampleNode.WF := by
  refine ⟨by decide, ?_, ?_, ?_⟩ <;> rfl

/-- C2: for every node and every slot `0 ≤ n < nThreads`, whatever the slot
held, `reinit(n)` succeeds and leaves `getTT(n)`, `getNodeParent(n)` and
`getCellParent(n)` at the maximum of their type. -/
theorem reinit_resets_slot [NumericLimits T1] [NumericLimits T2] (a : Node3Dc T1 T2)
    (n : Int) (hwf : a.WF) (h0 : 0 ≤ n) (hn : n < a.nThreads) :
    ∃ b : Node3Dc T1 T2, a.reinit n = some b ∧
      b.getTT n = some NumericLimits.max ∧
      b.getNodeParent n = some NumericLimits.max ∧
      b.getCellParent n = some NumericLimits.max := by
  refine ⟨_, reinit_eq a n hwf h0 hn, ?_, ?_, ?_⟩
  · exact rawGet_set_same _ _ _ h0 (by have := hwf.2.1; omega)
  · exact rawGet_set_same _ _ _ h0 (by have := hwf.2.2.1; omega)
  · exact rawGet_set_same _ _ _ h0 (by have := hwf.2.2.2; omega)

/-- Slot 0 of the sample node, which holds travel time 1 and parents 3 and 0,
is unset by `reinit(0)`. -/
theorem reinit_resets_slot_witness :
    sampleNode.WF ∧ (0 : Int) ≤ 0 ∧ (0 : Int) < sampleNode.nThreads ∧
    ∃ b : Node3Dc Double Index32, sampleNode.reinit 0 = some b ∧
      b.getTT 0 = some (Double.fin false Double.maxK) ∧
      b.getNodeParent 0 = some 4294967295 ∧
      b.getCellParent 0 = some 4294967295 :=
  ⟨sampleNode_wf, by decide, by decide,
    reinit_resets_slot sampleNode 0 sampleNode_wf (by decide) (by decide)⟩

/-- C3: for every node and every slot `0 ≤ n < nThreads`, `reinit(n)` changes
nothing outside slot `n`: every other slot `m` keeps its travel time and both
parents, and the position, the grid index, the owners and the thread count
are unchanged. -/
theorem reinit_frame [NumericLimits T1] [NumericLimits T2] (a : Node3Dc T1 T2)
    (n : Int) (hwf : a.WF) (h0 : 0 ≤ n) (hn : n < a.nThreads) :
    ∃ b : Node3Dc T1 T2, a.reinit n = some b ∧
      (∀ m : Int, m ≠ n →
        b.getTT m = a.getTT m ∧ b.getNodeParent m = a.getNodeParent m ∧
        b.getCellParent m = a.getCellParent m) ∧
      b.getX = a.getX ∧ b.getY = a.getY ∧ b.getZ = a.getZ ∧
      b.getGridIndex = a.getGridIndex ∧ b.getOwners = a.getOwners ∧
      b.nThreads = a.nThreads := by
  refine ⟨_, reinit_eq a n hwf h0 hn, ?_, rfl, rfl, rfl, rfl, rfl, rfl⟩
  intro m hm
  by_cases hm0 : 0 ≤ m
  · exact ⟨rawGet_set_other _ _ _ _ h0 hm0 hm, rawGet_set_other _ _ _ _ h0 hm0 hm,
      rawGet_set_other _ _ _ _ h0 hm0 hm⟩
  · simp [getTT, getNodeParent, getCellParent, rawGet, hm0]

/-- Resetting slot 0 of the sample node leaves slot 1 and the shared members
as they were. -/
theorem reinit_frame_witness :
    sampleNode.WF ∧ (0 : Int) ≤ 0 ∧ (0 : Int) < sampleNode.nThreads ∧
    ∃ b : Node3Dc Double Index32, sampleNode.reinit 0 = some b ∧
      (∀ m : Int, m ≠ 0 →
        b.getTT m = sampleNode.getTT m ∧ b.getNodeParent m = sampleNode.getNodeParent m ∧
        b.getCellParent m = sampleNode.getCellParent m) ∧
      b.getX = sampleNode.getX ∧ b.getY = sampleNode.getY ∧ b.getZ = sampleNode.getZ ∧
      b.getGridIndex = sampleNode.getGridIndex ∧ b.getOwners = sampleNode.getOwners ∧
      b.nThreads = sampleNode.nThreads :=
  ⟨sampleNode_wf, by decide, by decide,
    reinit_frame sampleNode 0 sampleNode_wf (by decide) (by decide)⟩

/-! ## Travel time, owners, geometry -/

/-- C4: for every node, every slot `0 ≤ n < nThreads` and every value `t` of
`T1` (the maximum included), `setTT(t, n)` succeeds and `getTT(n)` then
returns exactly `t`. -/
theorem setTT_getTT [NumericLimits T1] (a : Node3Dc T1 T2) (t : T1) (n : Int)
    (hwf : a.WF) (h0 : 0 ≤ n) (hn : n < a.nThreads) :
    (∃ b : Node3Dc T1 T2, a.setTT t n = some b ∧ b.getTT n = some t) ∧
    (∃ b : Node3Dc T1 T2, a.setTT NumericLimits.max n = some b ∧
      b.getTT n = some NumericLimits.max) := by
  have h : n.toNat < a.tt.length := by
    have := hwf.2.1
    omega
  have key : ∀ v : T1, ∃ b : Node3Dc T1 T2, a.setTT v n = some b ∧ b.getTT n = some v := by
    intro v
    refine ⟨{ a with tt := a.tt.set n.toNat v }, ?_, ?_⟩
    · simp [setTT, rawSet_of_lt _ _ _ h0 h]
    · exact rawGet_set_same _ _ _ h0 h
  exact ⟨key t, key _⟩

/-- Writing 6 and then the maximum into slot 1 of the sample node reads back
the value written. -/
theorem setTT_getTT_witness :
    sampleNode.WF ∧ (0 : Int) ≤ 1 ∧ (1 : Int) < sampleNode.nThreads ∧
    (∃ b : Node3Dc Double Index32, sampleNode.setTT (Double.ofNat 6) 1 = some b ∧
      b.getTT 1 = some (Double.ofNat 6)) ∧
    (∃ b : Node3Dc Double Index32, sampleNode.setTT NumericLimits.max 1 = some b ∧
      b.getTT 1 = some NumericLimits.max) :=
  ⟨sampleNode_wf, by decide, by decide,
    setTT_getTT sampleNode (Double.ofNat 6) 1 sampleNode_wf (by decide) (by decide)⟩

theorem foldl_pushOwner_owners (vs : List T2) (a : Node3Dc T1 T2) :
    (vs.foldl pushOwner a).owners = a.owners ++ vs := by
  induction vs generalizing a with
  | nil => simp
  | cons v vs ih => simp [ih, pushOwner]

theorem fresh_owners [Inhabited T1] [Inhabited T2] [Zero T1] [NumericLimits T1]
    [NumericLimits T2] (a : Node3Dc T1 T2) (h : a.Fresh) : a.owners = [] := by
  rcases h with ⟨nt, h⟩ | ⟨t, xx, yy, zz, nt, i, h⟩
  · unfold ctor at h
    split at h
    · cases h
    · cases h
      rw [initLoop_eq]
      rfl
  · unfold ctorSeeded at h
    split at h
    · cases h
    · simp only [Option.map_eq_some'] at h
      obtain ⟨tt1, _, rfl⟩ := h
      rw [initLoop_eq]
      rfl

/-- C5: for every list of index values `v1..vk` (any `k ≥ 0`, duplicates
allowed), calling `pushOwner(v1)`, ..., `pushOwner(vk)` in that order on a
fresh node makes `getOwners()` exactly `[v1, ..., vk]`: `k` entries, in the
order pushed, none dropped and none merged. -/
theorem pushOwner_sequence [Inhabited T1] [Inhabited T2] [Zero T1] [NumericLimits T1]
    [NumericLimits T2] (a : Node3Dc T1 T2) (vs : List T2) (h : a.Fresh) :
    (vs.foldl pushOwner a).getOwners = vs ∧
      (vs.foldl pushOwner a).getOwners.length = vs.length := by
  have : (vs.foldl pushOwner a).getOwners = vs := by
    simp [getOwners, foldl_pushOwner_owners, fresh_owners a h]
  exact ⟨this, by rw [this]⟩

/-- Scenario C, with a repeated value: `pushOwner(5)`, `pushOwner(9)`,
`pushOwner(5)` on a new node give the owners `[5, 9, 5]`. -/
theorem pushOwner_sequence_witness :
    ∃ a : Node3Dc Double Index32, a.Fresh ∧
      (([5, 9, 5] : List Index32).foldl pushOwner a).getOwners = [5, 9, 5] ∧
      (([5, 9, 5] : List Index32).foldl pushOwner a).getOwners.length = 3 :=
  ⟨initLoop 4 (allocated 0 0 0 4), Or.inl ⟨4, rfl⟩,
    pushOwner_sequence _ [5, 9, 5] (Or.inl ⟨4, rfl⟩)⟩

/-- C10: for every node and all `xx`, `yy`, `zz`, `index`, after
`setXYZindex(xx, yy, zz, index)` the getters return `xx`, `yy`, `zz` and
`index`, while every slot keeps its travel time and parents and the owners
are unchanged; in particular `setXYZindex(1.0, 2.0, 3.0, 7)` on the sample node
gives grid index 7 and the position (1.0, 2.0, 3.0). -/
theorem setXYZindex_get (a : Node3Dc T1 T2) (xx yy zz : T1) (index : T2) :
    ((a.setXYZindex xx yy zz index).getX = xx ∧
      (a.setXYZindex xx yy zz index).getY = yy ∧
      (a.setXYZindex xx yy zz index).getZ = zz ∧
      (a.setXYZindex xx yy zz index).getGridIndex = index ∧
      (∀ n : Int, (a.setXYZindex xx yy zz index).getTT n = a.getTT n ∧
        (a.setXYZindex xx yy zz index).getNodeParent n = a.getNodeParent n ∧
        (a.setXYZindex xx yy zz index).getCellParent n = a.getCellParent n) ∧
      (a.setXYZindex xx yy zz index).getOwners = a.getOwners ∧
      (a.setXYZindex xx yy zz index).nThreads = a.nThreads) ∧
    ((sampleNode.setXYZindex (Double.ofNat 1) (Double.ofNat 2) (Double.ofNat 3) 7).getGridIndex
        = 7 ∧
      (sampleNode.setXYZindex (Double.ofNat 1) (Double.ofNat 2) (Double.ofNat 3) 7).getX
        = Double.ofNat 1 ∧
      (sampleNode.setXYZindex (Double.ofNat 1) (Double.ofNat 2) (Double.ofNat 3) 7).getY
        = Double.ofNat 2 ∧
      (sampleNode.setXYZindex (Double.ofNat 1) (Double.ofNat 2) (Double.ofNat 3) 7).getZ
        = Double.ofNat 3) :=
  ⟨⟨rfl, rfl, rfl, rfl, fun _ => ⟨rfl, rfl, rfl⟩, rfl, rfl⟩, rfl, rfl, rfl, rfl⟩

/-! ## Distance and proximity -/

/-- C6, as stated, fails: two distinct nodes with identical coordinates
`(+inf, 5, 6)` have distance NaN, which is not 0 and does not compare equal
to the distance taken in the other direction. -/
theorem getDistance_identical_counterexample :
    (sampleNode.setX (Double.inf false)).x = ((sampleNode.setX (Double.inf false)).setGridIndex 12).x ∧
    (sampleNode.setX (Double.inf false)).y = ((sampleNode.setX (Double.inf false)).setGridIndex 12).y ∧
    (sampleNode.setX (Double.inf false)).z = ((sampleNode.setX (Double.inf false)).setGridIndex 12).z ∧
    (sampleNode.setX (Double.inf false)).getDistance
      ((sampleNode.setX (Double.inf false)).setGridIndex 12) = Double.nan ∧
    (sampleNode.setX (Double.inf false)).getDistance
      ((sampleNode.setX (Double.inf false)).setGridIndex 12) ≠ 0 ∧
    Double.eqC ((sampleNode.setX (Double.inf false)).getDistance
      ((sampleNode.setX (Double.inf false)).setGridIndex 12)) 0 = false ∧
    Double.eqC ((sampleNode.setX (Double.inf false)).getDistance
        ((sampleNode.setX (Double.inf false)).setGridIndex 12))
      (((sampleNode.setX (Double.inf false)).setGridIndex 12).getDistance
        (sampleNode.setX (Double.inf false))) = false := by
  decide!

/-- C6, amended: for any two nodes `a` and `b`, `a.getDistance(b)` and
`b.getDistance(a)` are the same value; when all six coordinates are finite
that value is not a NaN, so the two calls compare equal with `==`; and the
distance is 0 whenever `a` and `b` have identical finite coordinates. -/
theorem getDistance_symm (a b : Node3Dc Double T2) :
    a.getDistance b = b.getDistance a ∧
    (a.x.isFinite = true → a.y.isFinite = true → a.z.isFinite = true →
      b.x.isFinite = true → b.y.isFinite = true → b.z.isFinite = true →
      Double.eqC (a.getDistance b) (b.getDistance a) = true) ∧
    (a.x.isFinite = true → a.y.isFinite = true → a.z.isFinite = true →
      a.x = b.x → a.y = b.y → a.z = b.z →
      a.getDistance b = 0 ∧ b.getDistance a = 0) := by
  refine ⟨getDistance_comm a b, ?_, ?_⟩
  · intro hax hay haz hbx hby hbz
    rw [← getDistance_comm a b]
    exact Double.eqC_self _ (getDistance_nonNeg a b hax hay haz hbx hby hbz)
  · intro hax hay haz hx hy hz
    have h := getDistance_same a b hax hay haz hx hy hz
    exact ⟨h, by rw [← getDistance_comm a b]; exact h⟩

/-- The sample node at (4, 5, 6) and a second node at the same place. -/
theorem getDistance_symm_witness :
    sampleNode.x.isFinite = true ∧ sampleNode.y.isFinite = true ∧
    sampleNode.z.isFinite = true ∧ sampleNode.x = (sampleNode.setGridIndex 12).x ∧
    sampleNode.y = (sampleNode.setGridIndex 12).y ∧
    sampleNode.z = (sampleNode.setGridIndex 12).z ∧
    Double.eqC (sampleNode.getDistance (sampleNode.setGridIndex 12))
      ((sampleNode.setGridIndex 12).getDistance sampleNode) = true ∧
    sampleNode.getDistance (sampleNode.setGridIndex 12) = 0 ∧
    (sampleNode.setGridIndex 12).getDistance sampleNode = 0 :=
  ⟨rfl, rfl, rfl, rfl, rfl, rfl,
    (getDistance_symm sampleNode (sampleNode.setGridIndex 12)).2.1 rfl rfl rfl rfl rfl rfl,
    (getDistance_symm sampleNode (sampleNode.setGridIndex 12)).2.2 rfl rfl rfl rfl rfl rfl⟩

/-- C7, as stated, fails: the nodes at `(2^(-600), 5, 6)` and `(0, 5, 6)` differ
on the x axis, yet both overloads of `getDistance` return 0, because the
square `2^(-1200)` of the difference underflows to zero. -/
theorem getDistance_zero_counterexample :
    (sampleNode.setX (Double.fin false (2 ^ 474))).getDistance (sampleNode.setX 0) = 0 ∧
    (sampleNode.setX (Double.fin false (2 ^ 474))).getDistancePt
      ⟨(sampleNode.setX 0).x, (sampleNode.setX 0).y, (sampleNode.setX 0).z⟩ = 0 ∧
    (sampleNode.setX (Double.fin false (2 ^ 474))).x ≠ (sampleNode.setX 0).x ∧
    Double.eqC (sampleNode.setX (Double.fin false (2 ^ 474))).x (sampleNode.setX 0).x = false ∧
    Double.lt 0 ((sampleNode.setX (Double.fin false (2 ^ 474))).getDistance (sampleNode.setX 0))
      = false := by
  decide!

/-- C7, amended: both overloads of `getDistance` return the same value, the
expression `sqrt((x-x')*(x-x') + (y-y')*(y-y') + (z-z')*(z-z'))` evaluated in
`double` arithmetic. For positions with finite coordinates it is zero if and
only if, on each axis, the computed difference is so small that its square
rounds to zero (exact square at most `2^(-1075)`); this is the case when the
coordinates are identical, and a distance that is not zero is strictly
positive. -/
theorem getDistance_zero_iff (a b : Node3Dc Double T2) :
    a.getDistance b = a.getDistancePt ⟨b.x, b.y, b.z⟩ ∧
    a.getDistance b =
      Double.sqrt (Double.add
        (Double.add (Double.mul (Double.sub a.x b.x) (Double.sub a.x b.x))
          (Double.mul (Double.sub a.y b.y) (Double.sub a.y b.y)))
        (Double.mul (Double.sub a.z b.z) (Double.sub a.z b.z))) ∧
    (a.x.isFinite = true → a.y.isFinite = true → a.z.isFinite = true →
      b.x.isFinite = true → b.y.isFinite = true → b.z.isFinite = true →
      (a.getDistance b = 0 ↔
        (a.x - b.x).squareUnderflows = true ∧ (a.y - b.y).squareUnderflows = true ∧
          (a.z - b.z).squareUnderflows = true) ∧
      (a.x = b.x ∧ a.y = b.y ∧ a.z = b.z → a.getDistance b = 0) ∧
      (a.getDistance b ≠ 0 → 0 < a.getDistance b)) := by
  refine ⟨rfl, rfl, ?_⟩
  intro hax hay haz hbx hby hbz
  refine ⟨getDistance_eq_zero_iff a b hax hay haz hbx hby hbz, ?_, ?_⟩
  · rintro ⟨hx, hy, hz⟩
    exact getDistance_same a b hax hay haz hx hy hz
  · intro h
    exact Double.lt_zero_of_nonNeg _ (getDistance_nonNeg a b hax hay haz hbx hby hbz) h

/-- The sample node at (4, 5, 6) against the node moved to (1, 5, 6): the
distance is not zero, hence strictly positive. -/
theorem getDistance_zero_iff_witness :
    sampleNode.x.isFinite = true ∧ sampleNode.y.isFinite = true ∧
    sampleNode.z.isFinite = true ∧ (sampleNode.setX (Double.ofNat 1)).x.isFinite = true ∧
    (sampleNode.setX (Double.ofNat 1)).y.isFinite = true ∧
    (sampleNode.setX (Double.ofNat 1)).z.isFinite = true ∧
    sampleNode.getDistance (sampleNode.setX (Double.ofNat 1)) ≠ 0 ∧
    (0 : Double) < sampleNode.getDistance (sampleNode.setX (Double.ofNat 1)) :=
  have h : sampleNode.getDistance (sampleNode.setX (Double.ofNat 1)) ≠ 0 := by
    rw [Ne, (getDistance_zero_iff sampleNode (sampleNode.setX (Double.ofNat 1))).2.2
      rfl rfl rfl rfl rfl rfl |>.1]
    decide!
  ⟨rfl, rfl, rfl, rfl, rfl, rfl, h,
    ((getDistance_zero_iff sampleNode (sampleNode.setX (Double.ofNat 1))).2.2
      rfl rfl rfl rfl rfl rfl).2.2 h⟩

theorem toSizeT_of_nonneg (i : Int) (h0 : 0 ≤ i) (h : i < 2 ^ 64) : toSizeT i = i.toNat := by
  unfold toSizeT sizeBits
  rw [Int.emod_eq_of_lt h0 (by norm_num; omega)]

theorem getSize_eq [CSizeof T1] [CSizeof T2] (a : Node3Dc T1 T2) (h0 : 0 ≤ a.nThreads)
    (h : a.nThreads < 2 ^ 30) : a.getSize = some (a.byteCount % 2 ^ sizeBits) := by
  have h1 : checkedInt (2 * a.nThreads) = some (2 * a.nThreads) := by
    unfold checkedInt intMax
    rw [if_pos (by constructor <;> omega)]
  have h2 : checkedInt (1 + 2 * a.nThreads) = some (1 + 2 * a.nThreads) := by
    unfold checkedInt intMax
    rw [if_pos (by constructor <;> omega)]
  have h3 : toSizeT a.nThreads = a.nThreads.toNat :=
    toSizeT_of_nonneg _ h0 (by omega)
  have h4 : toSizeT (1 + 2 * a.nThreads) = 1 + 2 * a.nThreads.toNat := by
    rw [toSizeT_of_nonneg _ (by omega) (by omega)]
    omega
  simp [getSize, h1, h2, h3, h4, byteCount]

theorem byteCount_mono [CSizeof T1] [CSizeof T2] (a b : Node3Dc T1 T2)
    (hn : a.nThreads ≤ b.nThreads) (ho : a.owners.length ≤ b.owners.length) :
    a.byteCount ≤ b.byteCount := by
  have h1 : a.nThreads.toNat ≤ b.nThreads.toNat := Int.toNat_le_toNat hn
  unfold byteCount
  gcongr

theorem wideNode_wf (o : Index32) : (wideNode.pushOwner o).WF :=
  ⟨(by decide : (0 : Int) ≤ 1073741824), List.length_replicate _ _,
    List.length_replicate _ _, List.length_replicate _ _⟩

theorem wideNode_getSize (o : Index32) : (wideNode.pushOwner o).getSize = none := by
  have h : checkedInt (2 * 1073741824) = none := by decide
  show (checkedInt (2 * 1073741824)).bind _ = none
  rw [h]
  rfl

theorem sampleNode_getSize : sampleNode.getSize = some 68 := by
  decide

/-- C9, as stated, fails: the sample node (2 threads, 1 owner) and a node of
`2^30` threads with 1 owner have ordered thread counts and owner counts, and
`getSize()` of the first is 68, but `getSize()` of the second has no value,
since `2*nThreads` overflows `int`. -/
theorem getSize_mono_counterexample :
    sampleNode.WF ∧ (wideNode.pushOwner 7).WF ∧
      sampleNode.nThreads ≤ (wideNode.pushOwner 7).nThreads ∧
      sampleNode.owners.length ≤ (wideNode.pushOwner 7).owners.length ∧
      sampleNode.getSize = some 68 ∧
      ¬ ∃ s1 s2 : Nat, sampleNode.getSize = some s1 ∧
          (wideNode.pushOwner 7).getSize = some s2 ∧ s1 ≤ s2 := by
  refine ⟨sampleNode_wf, wideNode_wf 7, ?_, ?_, sampleNode_getSize, ?_⟩
  · show (2 : Int) ≤ 1073741824
    decide
  · show 1 ≤ 1
    decide
  · rintro ⟨s1, s2, -, h, -⟩
    rw [wideNode_getSize] at h
    cases h

/-- C9, amended: for two nodes with the same numeric types, thread counts
`0 ≤ nThreads1 ≤ nThreads2 < 2^30` (so that `1+2*nThreads` fits in `int`) and
`owners1.size() ≤ owners2.size()`, when the byte count of the second fits in
`size_t`, both calls of `getSize()` return and the first result is at most the
second; in particular, under the same bounds, `pushOwner` does not decrease
`getSize()`. -/
theorem getSize_mono [CSizeof T1] [CSizeof T2] (a b : Node3Dc T1 T2)
    (ha : 0 ≤ a.nThreads) (hn : a.nThreads ≤ b.nThreads) (hb : b.nThreads < 2 ^ 30)
    (ho : a.owners.length ≤ b.owners.length) (hfit : b.byteCount < 2 ^ sizeBits) :
    (∃ s1 s2 : Nat, a.getSize = some s1 ∧ b.getSize = some s2 ∧ s1 ≤ s2) ∧
    (∀ o : T2, ∃ s0 s1 : Nat, (a.pushOwner o).getSize = some s1 ∧ a.getSize = some s0 ∧
      ((a.pushOwner o).byteCount < 2 ^ sizeBits → s0 ≤ s1)) := by
  have hfit1 : a.byteCount < 2 ^ sizeBits :=
    lt_of_le_of_lt (byteCount_mono a b hn ho) hfit
  have hpush : ∀ o : T2, a.byteCount ≤ (a.pushOwner o).byteCount := fun o =>
    byteCount_mono a (a.pushOwner o) (le_refl _) (by simp [pushOwner])
  refine ⟨⟨_, _, getSize_eq a ha (by omega), getSize_eq b (by omega) hb, ?_⟩, fun o => ?_⟩
  · rw [Nat.mod_eq_of_lt hfit1, Nat.mod_eq_of_lt hfit]
    exact byteCount_mono a b hn ho
  · refine ⟨_, _, getSize_eq (a.pushOwner o) ha (by simpa [pushOwner] using by omega),
      getSize_eq a ha (by omega), fun h => ?_⟩
    rw [Nat.mod_eq_of_lt hfit1, Nat.mod_eq_of_lt h]
    exact hpush o

/-- The sample node (2 threads, 1 owner, 68 bytes) against a node of 4 threads
and 2 owners (104 bytes). -/
theorem getSize_mono_witness :
    0 ≤ sampleNode.nThreads ∧ sampleNode.nThreads ≤ fourThreadNode.nThreads ∧
    fourThreadNode.nThreads < 2 ^ 30 ∧
    sampleNode.owners.length ≤ fourThreadNode.owners.length ∧
    fourThreadNode.byteCount < 2 ^ sizeBits ∧
    (∃ s1 s2 : Nat, sampleNode.getSize = some s1 ∧ fourThreadNode.getSize = some s2 ∧
      s1 ≤ s2) ∧
    (∀ o : Index32, ∃ s0 s1 : Nat, (sampleNode.pushOwner o).getSize = some s1 ∧
      sampleNode.getSize = some s0 ∧
      ((sampleNode.pushOwner o).byteCount < 2 ^ sizeBits → s0 ≤ s1)) :=
  ⟨by decide, by decide, by decide, by decide, by decide,
    getSize_mono sampleNode fourThreadNode (by decide) (by decide) (by decide) (by decide)
      (by decide)⟩

end Node3Dc

/-! ## The 3-4-5 triangle -/

namespace Double

theorem sqrt_of_sq (k r : Nat) (hk : k ≠ 0) (h : k * 2 ^ 1074 = r * r) :
    sqrt (fin false k) = ofMagnitude false (2 * r) 1 := by
  rw [sqrt_fin_pos k hk, h, Nat.sqrt_eq, if_pos rfl, Nat.add_zero]

theorem sqrt_twentyFive : sqrt (ofNat 25) = ofNat 5 := by
  have h := sqrt_of_sq (25 * oneK) (5 * oneK) (by decide!) (by decide!)
  rw [show ofNat 25 = fin false (25 * oneK) from rfl, h]
  decide!

end Double

namespace Node3Dc

variable {T1 T2 : Type}

/-- C11: for two nodes positioned at (0,0,0) and (3,4,0), `getDistance`
returns exactly 5, in either direction. -/
theorem getDistance_three_four (a b : Node3Dc Double T2)
    (hax : a.x = 0) (hay : a.y = 0) (haz : a.z = 0)
    (hbx : b.x = Double.ofNat 3) (hby : b.y = Double.ofNat 4) (hbz : b.z = 0) :
    a.getDistance b = Double.ofNat 5 ∧ b.getDistance a = Double.ofNat 5 := by
  have h : a.getDistance b = Double.ofNat 5 := by
    rw [getDistance_eq, hax, hay, haz, hbx, hby, hbz]
    have hsum : Double.add
        (Double.add (Double.mul (Double.sub 0 (Double.ofNat 3)) (Double.sub 0 (Double.ofNat 3)))
          (Double.mul (Double.sub 0 (Double.ofNat 4)) (Double.sub 0 (Double.ofNat 4))))
        (Double.mul (Double.sub 0 0) (Double.sub 0 0)) = Double.ofNat 25 := by decide!
    rw [hsum, Double.sqrt_twentyFive]
  exact ⟨h, by rw [← getDistance_comm a b]; exact h⟩

/-- Scenario D on two nodes built by the seeded constructor, with one thread
and travel time 0 in slot 0. -/
theorem getDistance_three_four_witness :
    ∃ a b : Node3Dc Double Index32,
      ctorSeeded 0 0 0 0 1 0 = some a ∧
      ctorSeeded 0 (Double.ofNat 3) (Double.ofNat 4) 0 1 0 = some b ∧
      a.x = 0 ∧ a.y = 0 ∧ a.z = 0 ∧
      b.x = Double.ofNat 3 ∧ b.y = Double.ofNat 4 ∧ b.z = 0 ∧
      a.getDistance b = Double.ofNat 5 ∧ b.getDistance a = Double.ofNat 5 :=
  ⟨_, _, rfl, rfl, rfl, rfl, rfl, rfl, rfl, rfl,
    getDistance_three_four _ _ rfl rfl rfl rfl rfl rfl⟩

end Node3Dc

/-! ## Lemmas on the slot mutators -/

namespace Node3Dc

variable {T1 T2 : Type}

theorem setTT_eq (a : Node3Dc T1 T2) (t : T1) (n : Int) (hwf : a.WF) (h0 : 0 ≤ n)
    (hn : n < a.nThreads) : a.setTT t n = some { a with tt := a.tt.set n.toNat t } := by
  have h : n.toNat < a.tt.length := by
    have := hwf.2.1
    omega
  simp [setTT, rawSet_of_lt _ _ _ h0 h]

theorem setnodeParent_eq (a : Node3Dc T1 T2) (v : T2) (n : Int) (hwf : a.WF) (h0 : 0 ≤ n)
    (hn : n < a.nThreads) :
    a.setnodeParent v n = some { a with nodeParent := a.nodeParent.set n.toNat v } := by
  have h : n.toNat < a.nodeParent.length := by
    have := hwf.2.2.1
    omega
  simp [setnodeParent, rawSet_of_lt _ _ _ h0 h]

theorem setCellParent_eq (a : Node3Dc T1 T2) (v : T2) (n : Int) (hwf : a.WF) (h0 : 0 ≤ n)
    (hn : n < a.nThreads) :
    a.setCellParent v n = some { a with cellParent := a.cellParent.set n.toNat v } := by
  have h : n.toNat < a.cellParent.length := by
    have := hwf.2.2.2
    omega
  simp [setCellParent, rawSet_of_lt _ _ _ h0 h]

theorem run_eq [NumericLimits T1] [NumericLimits T2] (op : SlotOp T1 T2)
    (a : Node3Dc T1 T2) (n : Int) (hwf : a.WF) (h0 : 0 ≤ n) (hn : n < a.nThreads) :
    op.run a n = some (op.written a n.toNat) := by
  cases op with
  | reinit => exact reinit_eq a n hwf h0 hn
  | setTT t => exact setTT_eq a t n hwf h0 hn
  | setnodeParent v => exact setnodeParent_eq a v n hwf h0 hn
  | setCellParent v => exact setCellParent_eq a v n hwf h0 hn

theorem written_wf [NumericLimits T1] [NumericLimits T2] (op : SlotOp T1 T2)
    (a : Node3Dc T1 T2) (k : Nat) (hwf : a.WF) : (op.written a k).WF := by
  obtain ⟨h0, h1, h2, h3⟩ := hwf
  cases op <;> simp [SlotOp.written, WF, h0, h1, h2, h3]

theorem written_nThreads [NumericLimits T1] [NumericLimits T2] (op : SlotOp T1 T2)
    (a : Node3Dc T1 T2) (k : Nat) : (op.written a k).nThreads = a.nThreads := by
  cases op <;> rfl

theorem written_comm [NumericLimits T1] [NumericLimits T2] (opA opB : SlotOp T1 T2)
    (a : Node3Dc T1 T2) (k m : Nat) (h : k ≠ m) :
    opB.written (opA.written a k) m = opA.written (opB.written a m) k := by
  have hc : ∀ {T : Type} (l : List T) (u v : T), (l.set k u).set m v = (l.set m v).set k u :=
    fun l u v => List.set_comm u v l h
  cases opA <;> cases opB <;> simp [SlotOp.written, hc]

end Node3Dc

/-! ## Lemmas on the copy constructor -/

namespace Node3Dc

variable {T1 T2 : Type}

theorem eq_of_fields (a b : Node3Dc T1 T2) (h1 : a.nThreads = b.nThreads) (h2 : a.tt = b.tt)
    (h3 : a.x = b.x) (h4 : a.y = b.y) (h5 : a.z = b.z) (h6 : a.gridIndex = b.gridIndex)
    (h7 : a.nodeParent = b.nodeParent) (h8 : a.cellParent = b.cellParent)
    (h9 : a.owners = b.owners) : a = b := by
  cases a
  cases b
  simp_all

theorem list_eq_of_agree {T : Type} (l1 l2 : List T) (n : Nat) (h1 : l1.length = n)
    (h2 : l2.length = n) (h : ∀ i : Nat, i < n → l1[i]? = l2[i]?) : l1 = l2 := by
  apply List.ext_getElem?
  intro i
  by_cases hi : i < n
  · exact h i hi
  · rw [List.getElem?_eq_none (by omega), List.getElem?_eq_none (by omega)]

/-- The state of the copy loop after `k` turns: the first `k` slots hold the
values of `node`, everything else is as in the initial state. -/
theorem copyLoop_firstSlots (node init : Node3Dc T1 T2) (n : Nat)
    (hs1 : node.tt.length = n) (hs2 : node.nodeParent.length = n)
    (hs3 : node.cellParent.length = n) (hd1 : init.tt.length = n)
    (hd2 : init.nodeParent.length = n) (hd3 : init.cellParent.length = n) :
    ∀ k : Nat, k ≤ n → ∃ s : Node3Dc T1 T2,
      (List.range k).foldlM (copySlot node) init = some s ∧
      s.nThreads = init.nThreads ∧ s.x = init.x ∧ s.y = init.y ∧ s.z = init.z ∧
      s.gridIndex = init.gridIndex ∧ s.owners = init.owners ∧
      s.tt.length = n ∧ s.nodeParent.length = n ∧ s.cellParent.length = n ∧
      ∀ i : Nat, i < k →
        s.tt[i]? = node.tt[i]? ∧ s.nodeParent[i]? = node.nodeParent[i]? ∧
          s.cellParent[i]? = node.cellParent[i]? := by
  intro k
  induction k with
  | zero =>
    intro _
    exact ⟨init, rfl, rfl, rfl, rfl, rfl, rfl, rfl, hd1, hd2, hd3, fun i hi => absurd hi (by omega)⟩
  | succ k ih =>
    intro hk
    obtain ⟨s, hs, e1, e2, e3, e4, e5, e6, l1, l2, l3, hpre⟩ := ih (by omega)
    have hk1 : k < node.tt.length := by omega
    have hk2 : k < node.nodeParent.length := by omega
    have hk3 : k < node.cellParent.length := by omega
    obtain ⟨t, g1⟩ : ∃ t, node.tt[k]? = some t := ⟨_, List.getElem?_eq_getElem hk1⟩
    obtain ⟨np, g2⟩ : ∃ np, node.nodeParent[k]? = some np := ⟨_, List.getElem?_eq_getElem hk2⟩
    obtain ⟨cp, g3⟩ : ∃ cp, node.cellParent[k]? = some cp := ⟨_, List.getElem?_eq_getElem hk3⟩
    have c1 : k < s.tt.length := by omega
    have c2 : k < s.nodeParent.length := by omega
    have c3 : k < s.cellParent.length := by omega
    have hstep : copySlot node s k = some
        { s with
          tt := s.tt.set k t
          nodeParent := s.nodeParent.set k np
          cellParent := s.cellParent.set k cp } := by
      unfold copySlot
      rw [g1, g2, g3]
      simp only [Option.some_bind]
      rw [if_pos ⟨c1, c2, c3⟩]
    have hfold : (List.range (k + 1)).foldlM (copySlot node) init = some
        { s with
          tt := s.tt.set k t
          nodeParent := s.nodeParent.set k np
          cellParent := s.cellParent.set k cp } := by
      rw [List.range_succ, List.foldlM_append, hs]
      simp only [Option.bind_eq_bind, Option.some_bind, List.foldlM_cons, List.foldlM_nil]
      rw [hstep]
      rfl
    refine ⟨_, hfold, e1, e2, e3, e4, e5, e6, ?_, ?_, ?_, ?_⟩
    · rw [List.length_set]
      exact l1
    · rw [List.length_set]
      exact l2
    · rw [List.length_set]
      exact l3
    · intro i hi
      by_cases hik : i = k
      · subst hik
        refine ⟨?_, ?_, ?_⟩
        · rw [g1]
          exact List.getElem?_set_self c1
        · rw [g2]
          exact List.getElem?_set_self c2
        · rw [g3]
          exact List.getElem?_set_self c3
      · have hne : k ≠ i := fun h => hik h.symm
        have hp := hpre i (by omega)
        refine ⟨?_, ?_, ?_⟩
        · rw [← hp.1]
          exact List.getElem?_set_ne hne
        · rw [← hp.2.1]
          exact List.getElem?_set_ne hne
        · rw [← hp.2.2]
          exact List.getElem?_set_ne hne

/-- The copy of a node whose blocks have `nThreads` cells is built and equals
the node, member for member. -/
theorem ctorCopy_eq [Inhabited T1] [Inhabited T2] (a : Node3Dc T1 T2) (hwf : a.WF) :
    ctorCopy a = some a := by
  obtain ⟨h0, h1, h2, h3⟩ := hwf
  unfold ctorCopy
  rw [if_neg (by omega)]
  obtain ⟨s, hs, e1, e2, e3, e4, e5, e6, l1, l2, l3, hpre⟩ :=
    copyLoop_firstSlots a
      { nThreads := a.nThreads
        tt := newArray a.nThreads.toNat
        x := a.x
        y := a.y
        z := a.z
        gridIndex := a.gridIndex
        nodeParent := newArray a.nThreads.toNat
        cellParent := newArray a.nThreads.toNat
        owners := a.owners }
      a.nThreads.toNat h1 h2 h3 (by simp [newArray]) (by simp [newArray]) (by simp [newArray])
      a.nThreads.toNat (le_refl _)
  rw [hs]
  congr 1
  exact eq_of_fields s a e1
    (list_eq_of_agree _ _ _ l1 h1 fun i hi => (hpre i hi).1) e2 e3 e4 e5
    (list_eq_of_agree _ _ _ l2 h2 fun i hi => (hpre i hi).2.1)
    (list_eq_of_agree _ _ _ l3 h3 fun i hi => (hpre i hi).2.2) e6

theorem initLoop_wf [Inhabited T1] [Inhabited T2] [NumericLimits T1] [NumericLimits T2]
    (xx yy zz : T1) (nt : Int) (h : 0 ≤ nt) :
    (initLoop nt.toNat (allocated xx yy zz nt : Node3Dc T1 T2)).WF := by
  rw [initLoop_eq]
  refine ⟨h, ?_, ?_, ?_⟩ <;> simp [foldl_set_length, allocated, newArray]

end Node3Dc

/-! ## The class invariant and the owners -/

namespace Node3Dc

variable {T1 T2 : Type}

theorem sameShape_refl (a : Node3Dc T1 T2) (hwf : a.WF) : SameShape a a :=
  ⟨hwf, rfl, rfl, rfl, rfl⟩

theorem sameShape_written [NumericLimits T1] [NumericLimits T2] (op : SlotOp T1 T2)
    (a : Node3Dc T1 T2) (k : Nat) (hwf : a.WF) : SameShape a (op.written a k) := by
  refine ⟨written_wf op a k hwf, written_nThreads op a k, ?_, ?_, ?_⟩ <;>
    cases op <;> simp [SlotOp.written]

theorem sameShape_initLoop [Inhabited T1] [Inhabited T2] [NumericLimits T1] [NumericLimits T2]
    (xx yy zz : T1) (nt : Int) (h : 0 ≤ nt) :
    (initLoop nt.toNat (allocated xx yy zz nt : Node3Dc T1 T2)).WF ∧
      (initLoop nt.toNat (allocated xx yy zz nt : Node3Dc T1 T2)).nThreads = nt ∧
      (initLoop nt.toNat (allocated xx yy zz nt : Node3Dc T1 T2)).tt.length = nt.toNat ∧
      (initLoop nt.toNat (allocated xx yy zz nt : Node3Dc T1 T2)).nodeParent.length
        = nt.toNat ∧
      (initLoop nt.toNat (allocated xx yy zz nt : Node3Dc T1 T2)).cellParent.length
        = nt.toNat := by
  have hwf := @initLoop_wf T1 T2 _ _ _ _ xx yy zz nt h
  have hnt : (initLoop nt.toNat (allocated xx yy zz nt : Node3Dc T1 T2)).nThreads = nt := by
    rw [initLoop_eq]
    rfl
  refine ⟨hwf, hnt, ?_, ?_, ?_⟩
  · rw [hwf.2.1, hnt]
  · rw [hwf.2.2.1, hnt]
  · rw [hwf.2.2.2, hnt]

/-- C12: the three per-thread arrays of a node have the same length, the
thread count given at construction (for each of the three constructors), and
`reinit`, `setTT`, `setnodeParent`, `setCellParent`, `setXYZindex`, `setX`,
`setY`, `setZ`, `setGridIndex` and `pushOwner` keep both the lengths and
`nThreads`. -/
theorem invariant_preserved [Inhabited T1] [Inhabited T2] [Zero T1] [NumericLimits T1]
    [NumericLimits T2] (a : Node3Dc T1 T2) (n : Int) (hwf : a.WF) (h0 : 0 ≤ n)
    (hn : n < a.nThreads) (nt i : Int) (hi0 : 0 ≤ i) (hi : i < nt)
    (t xx yy zz : T1) (v : T2) :
    (∃ b : Node3Dc T1 T2, ctor nt = some b ∧ b.WF ∧ b.nThreads = nt ∧
      b.tt.length = nt.toNat ∧ b.nodeParent.length = nt.toNat ∧
      b.cellParent.length = nt.toNat) ∧
    (∃ b : Node3Dc T1 T2, ctorSeeded t xx yy zz nt i = some b ∧ b.WF ∧ b.nThreads = nt ∧
      b.tt.length = nt.toNat ∧ b.nodeParent.length = nt.toNat ∧
      b.cellParent.length = nt.toNat) ∧
    (∃ b : Node3Dc T1 T2, ctorCopy a = some b ∧ SameShape a b) ∧
    (∃ b : Node3Dc T1 T2, a.reinit n = some b ∧ SameShape a b) ∧
    (∃ b : Node3Dc T1 T2, a.setTT t n = some b ∧ SameShape a b) ∧
    (∃ b : Node3Dc T1 T2, a.setnodeParent v n = some b ∧ SameShape a b) ∧
    (∃ b : Node3Dc T1 T2, a.setCellParent v n = some b ∧ SameShape a b) ∧
    SameShape a (a.setXYZindex xx yy zz v) ∧ SameShape a (a.setX xx) ∧
    SameShape a (a.setY yy) ∧ SameShape a (a.setZ zz) ∧
    SameShape a (a.setGridIndex v) ∧ SameShape a (a.pushOwner v) := by
  have hnt : 0 ≤ nt := by omega
  have hnt2 : ¬ nt < 0 := by omega
  have hinit := @sameShape_initLoop T1 T2 _ _ _ _ xx yy zz nt hnt
  refine ⟨⟨_, ?_, sameShape_initLoop 0 0 0 nt hnt⟩, ?_, ⟨a, ctorCopy_eq a hwf, sameShape_refl a hwf⟩,
    ⟨_, run_eq SlotOp.reinit a n hwf h0 hn, sameShape_written _ a _ hwf⟩,
    ⟨_, run_eq (SlotOp.setTT t) a n hwf h0 hn, sameShape_written _ a _ hwf⟩,
    ⟨_, run_eq (SlotOp.setnodeParent v) a n hwf h0 hn, sameShape_written _ a _ hwf⟩,
    ⟨_, run_eq (SlotOp.setCellParent v) a n hwf h0 hn, sameShape_written _ a _ hwf⟩,
    sameShape_refl a hwf, sameShape_refl a hwf, sameShape_refl a hwf, sameShape_refl a hwf,
    sameShape_refl a hwf, sameShape_refl a hwf⟩
  · simp [ctor, hnt2]
  · obtain ⟨w1, w2, w3, w4, w5⟩ := hinit
    have hlt : i.toNat < (initLoop nt.toNat (allocated xx yy zz nt : Node3Dc T1 T2)).tt.length := by
      rw [w3]
      omega
    refine ⟨{ (initLoop nt.toNat (allocated xx yy zz nt : Node3Dc T1 T2)) with
        tt := (initLoop nt.toNat (allocated xx yy zz nt : Node3Dc T1 T2)).tt.set i.toNat t },
      ?_, ?_, w2, ?_, w4, w5⟩
    · simp [ctorSeeded, hnt2, rawSet_of_lt _ _ _ hi0 hlt]
    · obtain ⟨q0, q1, q2, q3⟩ := w1
      exact ⟨q0, by simpa using q1, q2, q3⟩
    · simpa using w3

/-- The sample node (2 threads) under each operation, and the constructors
with 4 threads seeded at slot 1. -/
theorem invariant_preserved_witness :
    sampleNode.WF ∧ (0 : Int) ≤ 1 ∧ (1 : Int) < sampleNode.nThreads ∧ (1 : Int) < 4 ∧
    (∃ b : Node3Dc Double Index32, ctor 4 = some b ∧ b.WF ∧ b.nThreads = 4 ∧
      b.tt.length = 4 ∧ b.nodeParent.length = 4 ∧ b.cellParent.length = 4) ∧
    (∃ b : Node3Dc Double Index32,
      ctorSeeded (Double.ofNat 6) (Double.ofNat 1) (Double.ofNat 2) (Double.ofNat 3) 4 1
        = some b ∧ b.WF ∧ b.nThreads = 4 ∧
      b.tt.length = 4 ∧ b.nodeParent.length = 4 ∧ b.cellParent.length = 4) ∧
    (∃ b : Node3Dc Double Index32, ctorCopy sampleNode = some b ∧ SameShape sampleNode b) ∧
    (∃ b : Node3Dc Double Index32, sampleNode.reinit 1 = some b ∧ SameShape sampleNode b) ∧
    (∃ b : Node3Dc Double Index32, sampleNode.setTT (Double.ofNat 6) 1 = some b ∧
      SameShape sampleNode b) ∧
    (∃ b : Node3Dc Double Index32, sampleNode.setnodeParent 9 1 = some b ∧
      SameShape sampleNode b) ∧
    (∃ b : Node3Dc Double Index32, sampleNode.setCellParent 9 1 = some b ∧
      SameShape sampleNode b) ∧
    SameShape sampleNode
      (sampleNode.setXYZindex (Double.ofNat 1) (Double.ofNat 2) (Double.ofNat 3) 9) ∧
    SameShape sampleNode (sampleNode.setX (Double.ofNat 1)) ∧
    SameShape sampleNode (sampleNode.setY (Double.ofNat 2)) ∧
    SameShape sampleNode (sampleNode.setZ (Double.ofNat 3)) ∧
    SameShape sampleNode (sampleNode.setGridIndex 9) ∧
    SameShape sampleNode (sampleNode.pushOwner 9) :=
  ⟨sampleNode_wf, by decide, by decide, by decide,
    invariant_preserved sampleNode 1 sampleNode_wf (by decide) (by decide) 4 1 (by decide)
      (by decide) (Double.ofNat 6) (Double.ofNat 1) (Double.ofNat 2) (Double.ofNat 3) 9⟩

/-- C13: `pushOwner(o)` turns the owner list into the previous list followed
by `o` (one entry more, every earlier entry at its place with its value), and
`reinit`, `setTT`, `setnodeParent`, `setCellParent`, `setXYZindex`, `setX`,
`setY`, `setZ` and `setGridIndex` leave `getOwners()` unchanged. -/
theorem owners_only_grow [NumericLimits T1] [NumericLimits T2] (a : Node3Dc T1 T2)
    (n : Int) (hwf : a.WF) (h0 : 0 ≤ n) (hn : n < a.nThreads)
    (t xx yy zz : T1) (o v : T2) :
    (a.pushOwner o).getOwners = a.getOwners ++ [o] ∧
    (a.pushOwner o).getOwners.length = a.getOwners.length + 1 ∧
    (∀ i : Nat, i < a.getOwners.length → (a.pushOwner o).getOwners[i]? = a.getOwners[i]?) ∧
    (a.pushOwner o).getOwners[a.getOwners.length]? = some o ∧
    (∃ b : Node3Dc T1 T2, a.reinit n = some b ∧ b.getOwners = a.getOwners) ∧
    (∃ b : Node3Dc T1 T2, a.setTT t n = some b ∧ b.getOwners = a.getOwners) ∧
    (∃ b : Node3Dc T1 T2, a.setnodeParent v n = some b ∧ b.getOwners = a.getOwners) ∧
    (∃ b : Node3Dc T1 T2, a.setCellParent v n = some b ∧ b.getOwners = a.getOwners) ∧
    (a.setXYZindex xx yy zz v).getOwners = a.getOwners ∧
    (a.setX xx).getOwners = a.getOwners ∧ (a.setY yy).getOwners = a.getOwners ∧
    (a.setZ zz).getOwners = a.getOwners ∧ (a.setGridIndex v).getOwners = a.getOwners := by
  refine ⟨rfl, ?_, ?_, ?_, ⟨_, run_eq SlotOp.reinit a n hwf h0 hn, rfl⟩,
    ⟨_, run_eq (SlotOp.setTT t) a n hwf h0 hn, rfl⟩,
    ⟨_, run_eq (SlotOp.setnodeParent v) a n hwf h0 hn, rfl⟩,
    ⟨_, run_eq (SlotOp.setCellParent v) a n hwf h0 hn, rfl⟩, rfl, rfl, rfl, rfl, rfl⟩
  · simp [getOwners, pushOwner]
  · intro i hi
    simp only [getOwners, pushOwner] at hi ⊢
    exact List.getElem?_append_left hi
  · simp [getOwners, pushOwner]

/-- The sample node, owned by cell 7: pushing 9 gives `[7, 9]`, and the
mutators on slot 1 keep `[7]`. -/
theorem owners_only_grow_witness :
    sampleNode.WF ∧ (0 : Int) ≤ 1 ∧ (1 : Int) < sampleNode.nThreads ∧
    (sampleNode.pushOwner 9).getOwners = [7, 9] ∧
    (∃ b : Node3Dc Double Index32, sampleNode.reinit 1 = some b ∧ b.getOwners = [7]) ∧
    (∃ b : Node3Dc Double Index32, sampleNode.setTT 0 1 = some b ∧ b.getOwners = [7]) :=
  have h := owners_only_grow sampleNode 1 sampleNode_wf (by decide) (by decide)
    0 0 0 0 9 9
  ⟨sampleNode_wf, by decide, by decide, h.1, h.2.2.2.2.1, h.2.2.2.2.2.1⟩

end Node3Dc

/-! ## Per-slot writes -/

namespace Node3Dc

variable {T1 T2 : Type}

theorem rawGet_set_ne {T : Type} (p : List T) (n m : Int) (v : T) (h0 : 0 ≤ n)
    (hne : m ≠ n) : rawGet (p.set n.toNat v) m = rawGet p m := by
  by_cases hm : 0 ≤ m
  · exact rawGet_set_other p n m v h0 hm hne
  · simp [rawGet, hm]

/-- C15: for every node, every slot `0 ≤ n < nThreads` and every value:
`setnodeParent(v, n)` then `getNodeParent(n)` returns `v`, `setCellParent(v, n)`
then `getCellParent(n)` returns `v`; and each of `setTT`, `setnodeParent`,
`setCellParent` on slot `n` changes only its own array at index `n`: the two
other arrays are unchanged at every slot, its own array is unchanged at every
slot `m ≠ n`, and the position, the grid index, the owners and the thread
count are unchanged. -/
theorem parents_roundtrip_frame (a : Node3Dc T1 T2) (n : Int) (hwf : a.WF) (h0 : 0 ≤ n)
    (hn : n < a.nThreads) (t : T1) (v : T2) :
    (∃ b : Node3Dc T1 T2, a.setnodeParent v n = some b ∧ b.getNodeParent n = some v ∧
      (∀ m : Int, b.getTT m = a.getTT m ∧ b.getCellParent m = a.getCellParent m) ∧
      (∀ m : Int, m ≠ n → b.getNodeParent m = a.getNodeParent m) ∧ SameShared a b) ∧
    (∃ b : Node3Dc T1 T2, a.setCellParent v n = some b ∧ b.getCellParent n = some v ∧
      (∀ m : Int, b.getTT m = a.getTT m ∧ b.getNodeParent m = a.getNodeParent m) ∧
      (∀ m : Int, m ≠ n → b.getCellParent m = a.getCellParent m) ∧ SameShared a b) ∧
    (∃ b : Node3Dc T1 T2, a.setTT t n = some b ∧ b.getTT n = some t ∧
      (∀ m : Int, b.getNodeParent m = a.getNodeParent m ∧
        b.getCellParent m = a.getCellParent m) ∧
      (∀ m : Int, m ≠ n → b.getTT m = a.getTT m) ∧ SameShared a b) := by
  have l1 : n.toNat < a.tt.length := by
    have := hwf.2.1
    omega
  have l2 : n.toNat < a.nodeParent.length := by
    have := hwf.2.2.1
    omega
  have l3 : n.toNat < a.cellParent.length := by
    have := hwf.2.2.2
    omega
  refine ⟨⟨_, setnodeParent_eq a v n hwf h0 hn, rawGet_set_same _ _ _ h0 l2,
      fun m => ⟨rfl, rfl⟩, fun m hm => rawGet_set_ne _ _ _ _ h0 hm,
      ⟨rfl, rfl, rfl, rfl, rfl, rfl⟩⟩,
    ⟨_, setCellParent_eq a v n hwf h0 hn, rawGet_set_same _ _ _ h0 l3,
      fun m => ⟨rfl, rfl⟩, fun m hm => rawGet_set_ne _ _ _ _ h0 hm,
      ⟨rfl, rfl, rfl, rfl, rfl, rfl⟩⟩,
    ⟨_, setTT_eq a t n hwf h0 hn, rawGet_set_same _ _ _ h0 l1,
      fun m => ⟨rfl, rfl⟩, fun m hm => rawGet_set_ne _ _ _ _ h0 hm,
      ⟨rfl, rfl, rfl, rfl, rfl, rfl⟩⟩⟩

/-- Slot 1 of the sample node: parent 9 is read back, and slot 0 keeps its
parents 3 and 0 and its travel time 1. -/
theorem parents_roundtrip_frame_witness :
    sampleNode.WF ∧ (0 : Int) ≤ 1 ∧ (1 : Int) < sampleNode.nThreads ∧
    (∃ b : Node3Dc Double Index32, sampleNode.setnodeParent 9 1 = some b ∧
      b.getNodeParent 1 = some 9 ∧
      (∀ m : Int, b.getTT m = sampleNode.getTT m ∧
        b.getCellParent m = sampleNode.getCellParent m) ∧
      (∀ m : Int, m ≠ 1 → b.getNodeParent m = sampleNode.getNodeParent m) ∧
      SameShared sampleNode b) :=
  ⟨sampleNode_wf, by decide, by decide,
    (parents_roundtrip_frame sampleNode 1 sampleNode_wf (by decide) (by decide)
      (Double.ofNat 6) 9).1⟩

theorem initLoop_shared [Inhabited T1] [Inhabited T2] [NumericLimits T1] [NumericLimits T2]
    (xx yy zz : T1) (nt : Int) :
    (initLoop nt.toNat (allocated xx yy zz nt : Node3Dc T1 T2)).x = xx ∧
    (initLoop nt.toNat (allocated xx yy zz nt : Node3Dc T1 T2)).y = yy ∧
    (initLoop nt.toNat (allocated xx yy zz nt : Node3Dc T1 T2)).z = zz ∧
    (initLoop nt.toNat (allocated xx yy zz nt : Node3Dc T1 T2)).gridIndex
      = NumericLimits.max ∧
    (initLoop nt.toNat (allocated xx yy zz nt : Node3Dc T1 T2)).owners = [] ∧
    (initLoop nt.toNat (allocated xx yy zz nt : Node3Dc T1 T2)).nThreads = nt := by
  rw [initLoop_eq]
  exact ⟨rfl, rfl, rfl, rfl, rfl, rfl⟩

/-- C16: for every thread count `nt ≥ 1`, every seed slot `0 ≤ i < nt` and all
values `t`, `xx`, `yy`, `zz`, the constructor `Node3Dc(t, xx, yy, zz, nt, i)`
builds a node with `getTT(i) = t`, `getTT(n)` the maximum of `T1` for every
other slot, both parents the maximum of `T2` for every slot (`i` included),
the position `(xx, yy, zz)`, the grid index the maximum of `T2`, and no
owner. -/
theorem ctorSeeded_spec [Inhabited T1] [Inhabited T2] [NumericLimits T1] [NumericLimits T2]
    (t xx yy zz : T1) (nt i : Int) (hnt : 1 ≤ nt) (hi0 : 0 ≤ i) (hi : i < nt) :
    ∃ a : Node3Dc T1 T2, ctorSeeded t xx yy zz nt i = some a ∧
      a.getTT i = some t ∧
      (∀ n : Int, 0 ≤ n → n < nt → n ≠ i → a.getTT n = some NumericLimits.max) ∧
      (∀ n : Int, 0 ≤ n → n < nt →
        a.getNodeParent n = some NumericLimits.max ∧
        a.getCellParent n = some NumericLimits.max) ∧
      a.getX = xx ∧ a.getY = yy ∧ a.getZ = zz ∧
      a.getGridIndex = NumericLimits.max ∧ a.getOwners = [] ∧ a.nThreads = nt := by
  have hnt2 : ¬ nt < 0 := by omega
  obtain ⟨w1, w2, w3, w4, w5⟩ := @sameShape_initLoop T1 T2 _ _ _ _ xx yy zz nt (by omega)
  obtain ⟨s1, s2, s3, s4, s5, s6⟩ := @initLoop_shared T1 T2 _ _ _ _ xx yy zz nt
  have hlt : i.toNat < (initLoop nt.toNat (allocated xx yy zz nt : Node3Dc T1 T2)).tt.length := by
    rw [w3]
    omega
  refine ⟨{ (initLoop nt.toNat (allocated xx yy zz nt : Node3Dc T1 T2)) with
      tt := (initLoop nt.toNat (allocated xx yy zz nt : Node3Dc T1 T2)).tt.set i.toNat t },
    ?_, rawGet_set_same _ _ _ hi0 hlt, ?_, ?_, s1, s2, s3, s4, s5, s6⟩
  · simp [ctorSeeded, hnt2, rawSet_of_lt _ _ _ hi0 hlt]
  · intro n hn0 hn hne
    exact (rawGet_set_ne _ _ _ _ hi0 hne).trans (initLoop_getTT xx yy zz nt n hn0 hn)
  · intro n hn0 hn
    exact ⟨initLoop_getNodeParent xx yy zz nt n hn0 hn,
      initLoop_getCellParent xx yy zz nt n hn0 hn⟩

/-- A source node of 4 threads seeded with travel time 0 in slot 2, at
(1, 2, 3). -/
theorem ctorSeeded_spec_witness :
    (1 : Int) ≤ 4 ∧ (0 : Int) ≤ 2 ∧ (2 : Int) < 4 ∧
    ∃ a : Node3Dc Double Index32,
      ctorSeeded 0 (Double.ofNat 1) (Double.ofNat 2) (Double.ofNat 3) 4 2 = some a ∧
      a.getTT 2 = some 0 ∧
      (∀ n : Int, 0 ≤ n → n < 4 → n ≠ 2 → a.getTT n = some (Double.fin false Double.maxK)) ∧
      (∀ n : Int, 0 ≤ n → n < 4 →
        a.getNodeParent n = some 4294967295 ∧ a.getCellParent n = some 4294967295) ∧
      a.getX = Double.ofNat 1 ∧ a.getY = Double.ofNat 2 ∧ a.getZ = Double.ofNat 3 ∧
      a.getGridIndex = 4294967295 ∧ a.getOwners = [] ∧ a.nThreads = 4 :=
  ⟨by decide, by decide, by decide,
    ctorSeeded_spec 0 (Double.ofNat 1) (Double.ofNat 2) (Double.ofNat 3) 4 2
      (by decide) (by decide) (by decide)⟩

/-- C17: writes to distinct slots commute: for every node, slots `n ≠ m` both
in `[0, nThreads)` and any two mutators `A`, `B` among `setTT`,
`setnodeParent`, `setCellParent`, `reinit`, running `A` on slot `n` then `B`
on slot `m` succeeds and gives exactly the node state that `B` on `m` then `A`
on `n` gives. -/
theorem slot_writes_commute [NumericLimits T1] [NumericLimits T2] (a : Node3Dc T1 T2)
    (n m : Int) (opA opB : SlotOp T1 T2) (hwf : a.WF) (hn0 : 0 ≤ n) (hn : n < a.nThreads)
    (hm0 : 0 ≤ m) (hm : m < a.nThreads) (hne : n ≠ m) :
    ∃ c : Node3Dc T1 T2,
      (opA.run a n).bind (fun b => opB.run b m) = some c ∧
      (opB.run a m).bind (fun b => opA.run b n) = some c := by
  have hk : n.toNat ≠ m.toNat := by omega
  refine ⟨opB.written (opA.written a n.toNat) m.toNat, ?_, ?_⟩
  · rw [run_eq opA a n hwf hn0 hn, Option.some_bind]
    exact run_eq opB _ m (written_wf opA a _ hwf) hm0 (by rw [written_nThreads]; exact hm)
  · rw [run_eq opB a m hwf hm0 hm, Option.some_bind, written_comm opA opB a _ _ hk]
    exact run_eq opA _ n (written_wf opB a _ hwf) hn0 (by rw [written_nThreads]; exact hn)

/-- On the sample node, `reinit(0)` and `setTT(6, 1)` in either order. -/
theorem slot_writes_commute_witness :
    sampleNode.WF ∧ (0 : Int) ≤ 0 ∧ (0 : Int) < sampleNode.nThreads ∧ (0 : Int) ≤ 1 ∧
    (1 : Int) < sampleNode.nThreads ∧ (0 : Int) ≠ 1 ∧
    ∃ c : Node3Dc Double Index32,
      (sampleNode.reinit 0).bind (fun b => b.setTT (Double.ofNat 6) 1) = some c ∧
      (sampleNode.setTT (Double.ofNat 6) 1).bind (fun b => b.reinit 0) = some c :=
  ⟨sampleNode_wf, by decide, by decide, by decide, by decide, by decide,
    slot_writes_commute sampleNode 0 1 SlotOp.reinit (SlotOp.setTT (Double.ofNat 6))
      sampleNode_wf (by decide) (by decide) (by decide) (by decide) (by decide)⟩

end Node3Dc

/-! ## Copies and the exact size -/

namespace Node3Dc

variable {T1 T2 : Type}

/-- C18: for every node `a`, the copy `b = Node3Dc(a)` is built and has the
thread count, `getX`, `getY`, `getZ`, `getGridIndex` and `getOwners()` of `a`,
and at every slot `n` in `[0, nThreads)` the `getTT(n)`, `getNodeParent(n)`
and `getCellParent(n)` of `a`; hence `getSize()` and `getDistance` to any
point or node agree on `a` and `b`. -/
theorem ctorCopy_observables [Inhabited T1] [Inhabited T2] [Add T1] [Sub T1] [Mul T1]
    [CMath T1] [CSizeof T1] [CSizeof T2] (a : Node3Dc T1 T2) (hwf : a.WF) :
    ∃ b : Node3Dc T1 T2, ctorCopy a = some b ∧
      b.nThreads = a.nThreads ∧ b.getX = a.getX ∧ b.getY = a.getY ∧ b.getZ = a.getZ ∧
      b.getGridIndex = a.getGridIndex ∧ b.getOwners = a.getOwners ∧
      (∀ n : Int, 0 ≤ n → n < a.nThreads →
        b.getTT n = a.getTT n ∧ b.getNodeParent n = a.getNodeParent n ∧
        b.getCellParent n = a.getCellParent n) ∧
      b.getSize = a.getSize ∧
      (∀ p : sxyz T1, b.getDistancePt p = a.getDistancePt p) ∧
      (∀ c : Node3Dc T1 T2, b.getDistance c = a.getDistance c) :=
  ⟨a, ctorCopy_eq a hwf, rfl, rfl, rfl, rfl, rfl, rfl, fun _ _ _ => ⟨rfl, rfl, rfl⟩, rfl,
    fun _ => rfl, fun _ => rfl⟩

/-- The copy of the sample node reads like the sample node. -/
theorem ctorCopy_observables_witness :
    sampleNode.WF ∧
    ∃ b : Node3Dc Double Index32, ctorCopy sampleNode = some b ∧
      b.nThreads = 2 ∧ b.getX = Double.ofNat 4 ∧ b.getY = Double.ofNat 5 ∧
      b.getZ = Double.ofNat 6 ∧ b.getGridIndex = 11 ∧ b.getOwners = [7] ∧
      (∀ n : Int, 0 ≤ n → n < sampleNode.nThreads →
        b.getTT n = sampleNode.getTT n ∧ b.getNodeParent n = sampleNode.getNodeParent n ∧
        b.getCellParent n = sampleNode.getCellParent n) ∧
      b.getSize = sampleNode.getSize ∧
      (∀ p : sxyz Double, b.getDistancePt p = sampleNode.getDistancePt p) ∧
      (∀ c : Node3Dc Double Index32, b.getDistance c = sampleNode.getDistance c) :=
  ⟨sampleNode_wf, ctorCopy_observables sampleNode sampleNode_wf⟩

theorem byteCount_formula [CSizeof T1] [CSizeof T2] (a : Node3Dc T1 T2) :
    a.byteCount = sizeofInt + (a.nThreads.toNat + 3) * CSizeof.sizeof T1
      + (1 + 2 * a.nThreads.toNat + a.owners.length) * CSizeof.sizeof T2 := by
  unfold byteCount
  ring

theorem wideNode_getSize_none : wideNode.getSize = none := by
  have h : checkedInt (2 * 1073741824) = none := by decide
  show (checkedInt (2 * 1073741824)).bind _ = none
  rw [h]
  rfl

/-- C19, as stated, fails: for the node of `2^30` threads and no owner the
formula gives 17179869216 bytes, but `getSize()` has no value, since
`2*nThreads` overflows `int`. -/
theorem getSize_formula_counterexample :
    (wideNode.pushOwner 7).WF ∧ wideNode.nThreads = 1073741824 ∧ wideNode.owners.length = 0 ∧
    (sizeofInt + (1073741824 + 3) * CSizeof.sizeof Double
      + (1 + 2 * 1073741824 + 0) * CSizeof.sizeof Index32) % 2 ^ sizeBits = 17179869216 ∧
    wideNode.getSize = none ∧ wideNode.getSize ≠ some 17179869216 := by
  refine ⟨wideNode_wf 7, rfl, rfl, by decide, wideNode_getSize_none, ?_⟩
  rw [wideNode_getSize_none]
  exact fun h => Option.noConfusion h

/-- C19, amended: for a thread count `0 ≤ nThreads < 2^30` (so that
`1+2*nThreads` fits in `int`; zero threads included), `getSize()` returns exactly
`sizeof(int) + (nThreads + 3)*sizeof(T1) + (1 + 2*nThreads + owners.size())*sizeof(T2)`
reduced modulo `2^64`; `pushOwner` raises it by exactly `sizeof(T2)` and one
more thread slot raises it by exactly `sizeof(T1) + 2*sizeof(T2)` (modulo
`2^64`); and for any thread count `reinit`, `setTT`, `setnodeParent`,
`setCellParent` (on a slot `0 ≤ n < nThreads`) and `setXYZindex` do not change
what `getSize()` returns. -/
theorem getSize_formula [NumericLimits T1] [NumericLimits T2] [CSizeof T1] [CSizeof T2]
    (a : Node3Dc T1 T2) (t xx yy zz : T1) (v o : T2) :
    (0 ≤ a.nThreads → a.nThreads < 2 ^ 30 →
      a.getSize = some ((sizeofInt + (a.nThreads.toNat + 3) * CSizeof.sizeof T1
        + (1 + 2 * a.nThreads.toNat + a.owners.length) * CSizeof.sizeof T2) % 2 ^ sizeBits) ∧
      (∃ s : Nat, a.getSize = some s ∧
        (a.pushOwner o).getSize = some ((s + CSizeof.sizeof T2) % 2 ^ sizeBits)) ∧
      (∀ b : Node3Dc T1 T2, b.nThreads = a.nThreads + 1 → b.nThreads < 2 ^ 30 →
        b.owners.length = a.owners.length →
        ∃ s : Nat, a.getSize = some s ∧
          b.getSize = some ((s + (CSizeof.sizeof T1 + 2 * CSizeof.sizeof T2)) % 2 ^ sizeBits))) ∧
    (∀ n : Int, a.WF → 0 ≤ n → n < a.nThreads →
      (∃ b : Node3Dc T1 T2, a.reinit n = some b ∧ b.getSize = a.getSize) ∧
      (∃ b : Node3Dc T1 T2, a.setTT t n = some b ∧ b.getSize = a.getSize) ∧
      (∃ b : Node3Dc T1 T2, a.setnodeParent v n = some b ∧ b.getSize = a.getSize) ∧
      (∃ b : Node3Dc T1 T2, a.setCellParent v n = some b ∧ b.getSize = a.getSize)) ∧
    (a.setXYZindex xx yy zz v).getSize = a.getSize := by
  refine ⟨fun ha hlt => ?_, fun n hwf h0 hn =>
    ⟨⟨_, run_eq SlotOp.reinit a n hwf h0 hn, rfl⟩,
      ⟨_, run_eq (SlotOp.setTT t) a n hwf h0 hn, rfl⟩,
      ⟨_, run_eq (SlotOp.setnodeParent v) a n hwf h0 hn, rfl⟩,
      ⟨_, run_eq (SlotOp.setCellParent v) a n hwf h0 hn, rfl⟩⟩, rfl⟩
  refine ⟨?_, ⟨_, getSize_eq a ha hlt, ?_⟩, fun b hb hblt hbo => ⟨_, getSize_eq a ha hlt, ?_⟩⟩
  · rw [getSize_eq a ha hlt, byteCount_formula]
  · rw [getSize_eq (a.pushOwner o) ha hlt, Nat.mod_add_mod]
    congr 2
    simp only [byteCount, pushOwner, List.length_append, List.length_singleton]
    ring
  · rw [getSize_eq b (by omega) hblt, Nat.mod_add_mod]
    congr 2
    have e : b.nThreads.toNat = a.nThreads.toNat + 1 := by omega
    simp only [byteCount, e, hbo]
    ring

/-- The node of zero threads, as `Node3Dc(0)` builds it, has 32 bytes, 36 with
one owner and 48 with one thread more; on the sample node (68 bytes)
`reinit(1)` keeps the size. -/
theorem getSize_formula_witness :
    (0 : Int) ≤ zeroThreadNode.nThreads ∧ zeroThreadNode.nThreads < 2 ^ 30 ∧
    ctor 0 = some zeroThreadNode ∧
    zeroThreadNode.getSize = some 32 ∧
    (∃ s : Nat, zeroThreadNode.getSize = some s ∧
      (zeroThreadNode.pushOwner 9).getSize = some ((s + 4) % 2 ^ sizeBits)) ∧
    sampleNode.WF ∧ (0 : Int) ≤ 1 ∧ (1 : Int) < sampleNode.nThreads ∧
    (∃ b : Node3Dc Double Index32, sampleNode.reinit 1 = some b ∧
      b.getSize = sampleNode.getSize) :=
  have h := getSize_formula zeroThreadNode 0 0 0 0 9 9
  have h2 := getSize_formula sampleNode 0 0 0 0 9 9
  ⟨by decide, by decide, rfl, (h.1 (by decide) (by decide)).1,
    (h.1 (by decide) (by decide)).2.1, sampleNode_wf, by decide, by decide,
    (h2.2.1 1 sampleNode_wf (by decide) (by decide)).1⟩

end Node3Dc

end BhTomo
